import Mathlib

/-!
Verification of the UBV demultiplexer core (Go sources: `ubv/ubvfile.go`,
`ubv/ubvinfo.go`, `demux/demux.go`, `remux.go`) against its natural-language
specification.

The Go code is shallowly embedded:
* Go `int` / `int64` values are modelled as `Int` (the parser rejects values
  outside the `int64` range exactly where the Go code does, via
  `strconv.Atoi` / `strconv.ParseInt` failure).
* Go truncated division / remainder are `Int.tdiv` / `Int.tmod`.
* `time.Time` instants are modelled as nanoseconds since the Unix epoch (`Int`).
* In the `Option`-valued extractor definitions a fatal exit (`log.Fatal`) and
  a Go runtime panic are both `Option.none`; the `Except`-valued refinement
  (`nalLoopE`, `audioFrameReadE`, `DemuxSinglePartitionE`) distinguishes them,
  since deferred functions run during panic unwinding but not on `os.Exit`.
* The UBV input file is a `List Nat` of bytes; output sinks are the lists of
  bytes written to them.
-/

namespace UbvRemux

/-! ## Data model (ubv/ubvfile.go lines 10-75) -/

def FIELD_TRACK_TYPE : Nat := 0
def FIELD_TRACK_ID : Nat := 1
def FIELD_IS_KEYFRAME : Nat := 2
def FIELD_OFFSET : Nat := 3
def FIELD_SIZE : Nat := 4
def FIELD_WC : Nat := 7
def FIELD_WC_TBC : Nat := 8

/-- Track-id constants (ubv/ubvinfo.go lines 19-21). -/
def TrackAudio : Int := 1000

def TrackVideo : Int := 7

def TrackVideoHevcUnknown : Int := 1003

structure UbvFrame where
  trackNumber : Int
  offset : Int
  size : Int
deriving DecidableEq, Repr, Inhabited

structure UbvTrack where
  isVideo : Bool
  trackNumber : Int
  /-- `StartTimecode time.Time`, as nanoseconds since the Unix epoch. -/
  startTimecode : Int
  frameCount : Int
  rate : Int
  /-- `RateProbeWindow [32]int`, as a list of length 32. -/
  rateProbeWindow : List Int
  rateProbeLastFrameWC : Int
  /-- `LastTimecode time.Time`, as nanoseconds since the Unix epoch. -/
  lastTimecode : Int
deriving DecidableEq, Repr, Inhabited

structure UbvPartition where
  index : Int
  frameCount : Int
  /-- `Tracks map[int]*UbvTrack`, as an association list in insertion order. -/
  tracks : List (Int × UbvTrack)
  videoTrackCount : Int
  audioTrackCount : Int
  frames : List UbvFrame
deriving DecidableEq, Repr, Inhabited

structure UbvFile where
  complete : Bool
  filename : String
  partitions : List UbvPartition
deriving DecidableEq, Repr, Inhabited

/-! ## Go library primitives used by the parser -/

/-- `unicode.IsSpace`, restricted to the Latin-1 range (the characters that can
occur in sidecar output): space, tab, newline, vertical tab, form feed,
carriage return, NEL, NBSP. -/
def goIsSpace (c : Char) : Bool :=
  c = ' ' || c = '\t' || c = '\n' || c.toNat = 11 || c.toNat = 12 || c = '\r' ||
    c.toNat = 0x85 || c.toNat = 0xA0

/-- `strings.Fields` on the character list: the maximal runs of non-space
characters, in order (split at spaces, dropping empty chunks). -/
def splitWs (l : List Char) : List (List Char) :=
  (l.splitOnP goIsSpace).filter fun w => w ≠ []

/-- `strings.Fields` (ubv/ubvinfo.go line 128). -/
def goFields (s : String) : List String :=
  (splitWs s.data).map fun cs => String.mk cs

def digitsToNat (ds : List Char) : Nat :=
  ds.foldl (fun a c => a * 10 + (c.toNat - 48)) 0

/-- `strconv.Atoi` / `strconv.ParseInt(s, 10, 64)`: optional sign, decimal
digits, result must fit in an `int64` (out-of-range input is an error, which
the Go callers turn into `log.Fatal`). -/
def parseGoInt (s : String) : Option Int :=
  match s.data with
  | [] => none
  | c :: cs =>
    let p : Bool × List Char :=
      if c = '-' then (true, cs) else if c = '+' then (false, cs) else (false, c :: cs)
    if p.2 = [] then none
    else if p.2.all fun d => d.isDigit then
      let v : Int := if p.1 then -(digitsToNat p.2 : Int) else (digitsToNat p.2 : Int)
      if -(2 ^ 63) ≤ v ∧ v ≤ 2 ^ 63 - 1 then some v else none
    else none

/-! ## Timecode and rate extraction (ubv/ubvfile.go lines 77-156) -/

/-- Two's-complement wrap-around of Go `int64` arithmetic: reduce into
`[-2^63, 2^63)`. -/
def wrap64 (x : Int) : Int :=
  (x + 2 ^ 63) % 2 ^ 64 - 2 ^ 63

/-- The instant computed at ubv/ubvfile.go lines 94-98, as nanoseconds since
the Unix epoch: `utcMillis := (wc * 1000) / tbc` (Go `int64` arithmetic:
the product `wc * 1000` wraps on overflow, and the quotient is truncated
division, which overflows — and wraps — only in the `MinInt64 / -1` case;
both wraps are made explicit with `wrap64`), then
`time.Unix(utcMillis/1000, (utcMillis%1000)*1000000)` — these two divisions
by `1000` and the product `* 1000000` of a value in `[-999, 999]` stay inside
`int64`, and `time.Unix` represents the resulting instant exactly. -/
def frameTimecodeNanos (wc tbc : Int) : Int :=
  let utcMillis := wrap64 (Int.tdiv (wrap64 (wc * 1000)) tbc)
  let utcSecondsPart := Int.tdiv utcMillis 1000
  let utcNanosPart := Int.tmod utcMillis 1000 * 1000000
  utcSecondsPart * 1000000000 + utcNanosPart

/-- The fold state of `guessVideoRate`: the `counts` map plus the running
most-frequent value and its frequency. -/
structure GuessState where
  counts : Int → Nat
  mostFrequent : Int
  frequency : Nat

/-- One iteration of the `guessVideoRate` loop (ubv/ubvfile.go lines 144-153). -/
def guessStep (st : GuessState) (val : Int) : GuessState :=
  if 0 < val then
    let c := st.counts val + 1
    let counts : Int → Nat := fun v => if v = val then c else st.counts v
    if st.frequency < c then ⟨counts, val, c⟩ else ⟨counts, st.mostFrequent, st.frequency⟩
  else st

/-- `guessVideoRate` (ubv/ubvfile.go lines 139-156): the most frequent
positive value of the probe window (ties broken by first reaching the count). -/
def guessVideoRate (durations : List Int) : Int :=
  (durations.foldl guessStep ⟨fun _ => 0, 0, 0⟩).mostFrequent

/-- The body of `extractTimecodeAndRate` (ubv/ubvfile.go lines 88-137) after
`WC` and `WC_TBC` have been parsed. `none` models `log.Fatal` (`tbc == 0`, or
a probed rate outside `(0, 76)`) and the Go division-by-zero runtime panic
(`wc` equal to the previous frame's `wc`). -/
def extractTimecodeAndRateCore (wc tbc : Int) (track : UbvTrack) : Option UbvTrack :=
  if tbc = 0 then none
  else
    let frameTimecode := frameTimecodeNanos wc tbc
    let updated : Option UbvTrack :=
      if track.frameCount = 0 then
        let t := { track with startTimecode := frameTimecode }
        if !track.isVideo then some { t with rate := tbc }
        else some { t with rateProbeLastFrameWC := wc }
      else if track.rate = 0 ∧ track.isVideo = true then
        if track.frameCount < (track.rateProbeWindow.length : Int) then
          if wc - track.rateProbeLastFrameWC = 0 then none
          else
            some { track with
              rateProbeWindow :=
                track.rateProbeWindow.set track.frameCount.toNat
                  (Int.tdiv tbc (wc - track.rateProbeLastFrameWC)),
              rateProbeLastFrameWC := wc }
        else
          let rate := guessVideoRate track.rateProbeWindow
          if 0 < rate ∧ rate < 76 then some { track with rate := rate }
          else if rate = 0 then some { track with rate := 1 }
          else none
      else some track
    updated.map fun t => { t with lastTimecode := frameTimecode }

/-- `extractTimecodeAndRate` (ubv/ubvfile.go lines 77-137): parse `WC`
(field 7) and `WC_TBC` (field 8) and update the track. A missing field is a
Go index-out-of-range panic; an unparsable field is `log.Fatal`. -/
def extractTimecodeAndRate (fields : List String) (track : UbvTrack) : Option UbvTrack := do
  let wcS ← fields.get? FIELD_WC
  let wc ← parseGoInt wcS
  let tbcS ← fields.get? FIELD_WC_TBC
  let tbc ← parseGoInt tbcS
  extractTimecodeAndRateCore wc tbc track

/-- The complete effect of one frame line on its track: `extractTimecodeAndRate`
followed by the parser's `track.FrameCount++` (ubv/ubvinfo.go line 175). -/
def processTrackFrame (wc tbc : Int) (track : UbvTrack) : Option UbvTrack :=
  (extractTimecodeAndRateCore wc tbc track).map fun t =>
    { t with frameCount := t.frameCount + 1 }

/-- Iterated `processTrackFrame` over the wall-clock values of successive
frame lines of one track (fixed timebase). -/
def probeRun (tbc : Int) (wcs : List Int) (track : UbvTrack) : Option UbvTrack :=
  wcs.foldlM (fun t wc => processTrackFrame wc tbc t) track

/-! ## Sidecar parser (ubv/ubvinfo.go lines 99-189) -/

def partitionStartMarker : String := "----------- PARTITION START -----------"

/-- A freshly created partition (ubv/ubvinfo.go lines 106-109 and 117-120). -/
def newUbvPartition (index : Int) : UbvPartition :=
  { index := index, frameCount := 0, tracks := [], videoTrackCount := 0,
    audioTrackCount := 0, frames := [] }

/-- A freshly created track (ubv/ubvinfo.go lines 155-161): all other fields
are Go zero values. -/
def newUbvTrack (isVideo : Bool) (trackNumber : Int) : UbvTrack :=
  { isVideo := isVideo, trackNumber := trackNumber, startTimecode := 0,
    frameCount := 0, rate := 0, rateProbeWindow := List.replicate 32 0,
    rateProbeLastFrameWC := 0, lastTimecode := 0 }

def lookupTrack : List (Int × UbvTrack) → Int → Option UbvTrack
  | [], _ => none
  | (k, t) :: rest, key => if k = key then some t else lookupTrack rest key

def setTrack : List (Int × UbvTrack) → Int → UbvTrack → List (Int × UbvTrack)
  | [], key, t => [(key, t)]
  | (k, t0) :: rest, key, t =>
    if k = key then (key, t) :: rest else (k, t0) :: setTrack rest key t

/-- The frame-line branch of `parseUbvInfo` (ubv/ubvinfo.go lines 126-177):
parse track id, offset and size, reject unrecognised track ids, find or
create the track, update its timecode/rate state, bump the counters and
record the frame. -/
def processFrameLine (line : String) (current : UbvPartition) : Option UbvPartition := do
  let fields := goFields line
  let tidS ← fields.get? FIELD_TRACK_ID
  let tid ← parseGoInt tidS
  let offS ← fields.get? FIELD_OFFSET
  let off ← parseGoInt offS
  let sizeS ← fields.get? FIELD_SIZE
  let size ← parseGoInt sizeS
  let frame : UbvFrame := { trackNumber := tid, offset := off, size := size }
  let isRecognisedVideoTrack : Bool := tid = TrackVideo || tid = TrackVideoHevcUnknown
  if !isRecognisedVideoTrack && tid ≠ TrackAudio then none
  else
    let found := lookupTrack current.tracks tid
    let track := found.getD (newUbvTrack isRecognisedVideoTrack tid)
    let tracks := if found.isSome then current.tracks
      else current.tracks ++ [(tid, newUbvTrack isRecognisedVideoTrack tid)]
    let videoInc : Int := if found.isSome then 0 else if isRecognisedVideoTrack then 1 else 0
    let audioInc : Int := if found.isSome then 0 else if isRecognisedVideoTrack then 0 else 1
    let track2 ← extractTimecodeAndRate fields track
    let track3 := { track2 with frameCount := track2.frameCount + 1 }
    some { current with
      tracks := setTrack tracks tid track3,
      videoTrackCount := current.videoTrackCount + videoInc,
      audioTrackCount := current.audioTrackCount + audioInc,
      frameCount := current.frameCount + 1,
      frames := current.frames ++ [frame] }

/-- The parser's loop state. `current` is the partition being filled;
`currentListed` records whether it was created by a marker line (and hence
appended to the Go `partitions` slice) or is the initial throwaway value of
ubv/ubvinfo.go lines 106-109. -/
structure ParseState where
  firstLine : Bool
  partitions : List UbvPartition
  current : UbvPartition
  currentListed : Bool
deriving DecidableEq, Repr

def initParseState : ParseState :=
  { firstLine := true, partitions := [], current := newUbvPartition 0,
    currentListed := false }

/-- The state just after the header line has been consumed. -/
def postHeaderState : ParseState :=
  { firstLine := false, partitions := [], current := newUbvPartition 0,
    currentListed := false }

/-- The partitions that the Go `partitions` slice holds in state `st`. -/
def listedPartitions (st : ParseState) : List UbvPartition :=
  st.partitions ++ if st.currentListed then [st.current] else []

/-- One non-header line (ubv/ubvinfo.go lines 115-177): a marker starts a new
partition; a non-empty line whose first rune is whitespace is a frame line;
anything else is ignored. -/
def parseLineBody (st : ParseState) (line : String) : Option ParseState :=
  if line = partitionStartMarker then
    let parts := listedPartitions st
    some { firstLine := st.firstLine, partitions := parts,
           current := newUbvPartition (parts.length : Int), currentListed := true }
  else
    match line.data with
    | [] => some st
    | c :: _ =>
      if goIsSpace c then
        (processFrameLine line st.current).map fun p => { st with current := p }
      else some st

/-- One line of the scan loop (ubv/ubvinfo.go lines 112-178): the first line,
whatever its content, only clears the `firstLine` flag. -/
def parseLine (st : ParseState) (line : String) : Option ParseState :=
  if st.firstLine then some { st with firstLine := false }
  else parseLineBody st line

/-- `parseUbvInfo` (ubv/ubvinfo.go lines 99-189) on a list of sidecar lines.
`none` models `log.Fatal` during parsing. -/
def parseUbvInfo (filename : String) (lines : List String) : Option UbvFile :=
  (lines.foldlM parseLine initParseState).map fun st =>
    { complete := true, filename := filename, partitions := listedPartitions st }

/-! ## Essence extractor (demux/demux.go) -/

/-- Reinterpret a 32-bit big-endian value as Go `int32` (the target type of
`binary.Read` at demux/demux.go line 91). -/
def toInt32 (n : Nat) : Int :=
  if n < 2 ^ 31 then (n : Int) else (n : Int) - 2 ^ 32

/-- Read exactly `n` bytes of the UBV file starting at absolute position
`pos` (`io.ReadFull` semantics: a short read is an error; a seek to a
negative offset is an error). -/
def readBytes (file : List Nat) (pos : Int) (n : Nat) : Option (List Nat) :=
  if 0 ≤ pos ∧ pos + (n : Int) ≤ (file.length : Int) then
    some ((file.drop pos.toNat).take n)
  else none

/-- Seek to `pos` and read a big-endian 32-bit value (demux/demux.go
lines 87-93). -/
def readBE32 (file : List Nat) (pos : Int) : Option Nat :=
  match readBytes file pos 4 with
  | some [b0, b1, b2, b3] => some (((b0 * 256 + b1) * 256 + b2) * 256 + b3)
  | _ => none

/-- The per-video-frame NAL rewrite loop of `DemuxSinglePartition`
(demux/demux.go lines 81-116), with explicit fuel (structural recursion so
that the kernel can evaluate it; the loop advances the cursor by at least 4
per iteration, so `(size - c).toNat + 1` units of fuel always suffice, see
`nalLoopF_adequate`). `c` is `frameDataRead`. `none` models `log.Fatal`
(seek/read failure, or `frameDataRead+int(nalSize) > frame.Size`) and the
runtime panic of `buffer[0:nalSize]` when `nalSize` is negative or exceeds
the scratch buffer length `bufSize`. -/
def nalLoopF (file : List Nat) (offset size bufSize : Int) : Nat → Int → Option (List Nat)
  | 0, _ => none
  | fuel + 1, c =>
    if c < size then
      match readBE32 file (offset + c) with
      | none => none
      | some n =>
        let nalSize : Int := toInt32 n
        if size < c + nalSize then none
        else if nalSize < 0 then none
        else if bufSize < nalSize then none
        else
          match readBytes file (offset + c + 4) nalSize.toNat with
          | none => none
          | some payload =>
            match nalLoopF file offset size bufSize fuel (c + 4 + nalSize) with
            | none => none
            | some rest => some (payload ++ ([0, 0, 0, 1] ++ rest))
    else some []

/-- The NAL rewrite loop of demux/demux.go lines 85-116, started with
adequate fuel. -/
def nalLoop (file : List Nat) (offset size bufSize c : Int) : Option (List Nat) :=
  nalLoopF file offset size bufSize ((size - c).toNat + 1) c

/-- The audio branch of the frame loop (demux/demux.go lines 118-133): seek to
the frame offset and copy `frame.Size` bytes verbatim. `none` models
`log.Fatal` (seek/short read) and the `buffer[0:frame.Size]` panic. -/
def audioFrameRead (file : List Nat) (offset size bufSize : Int) : Option (List Nat) :=
  if offset < 0 then none
  else if size < 0 then none
  else if bufSize < size then none
  else readBytes file offset size.toNat

/-- Scratch buffer sizing (demux/demux.go lines 58-67). -/
def bufferSize (frames : List UbvFrame) : Int :=
  frames.foldl (fun m f => if m < f.size then f.size else m) 0

inductive Route where
  | video
  | audio
  | skip
deriving DecidableEq, Repr

/-- The routing conditional of the frame loop (demux/demux.go lines 79, 118
and 134): `frame.TrackNumber == videoTrackNum && videoFile != nil`, else
`frame.TrackNumber == ubv.TrackAudio && audioFile != nil`, else skip. -/
def routeFrame (frame : UbvFrame) (haveVideo : Bool) (videoTrackNum : Int)
    (haveAudio : Bool) : Route :=
  if frame.trackNumber = videoTrackNum ∧ haveVideo = true then Route.video
  else if frame.trackNumber = TrackAudio ∧ haveAudio = true then Route.audio
  else Route.skip

/-- One iteration of the frame loop (demux/demux.go lines 78-137): route the
frame, then either rewrite its NALs into the video sink, copy it verbatim to
the audio sink, or skip it. The accumulator holds the bytes written to the
two sinks so far. -/
def demuxStep (file : List Nat) (videoTrackNum : Int) (haveVideo haveAudio : Bool)
    (bufSize : Int) (acc : List Nat × List Nat) (frame : UbvFrame) :
    Option (List Nat × List Nat) :=
  match routeFrame frame haveVideo videoTrackNum haveAudio with
  | Route.video =>
    (nalLoop file frame.offset frame.size bufSize 0).map fun bs => (acc.1 ++ bs, acc.2)
  | Route.audio =>
    (audioFrameRead file frame.offset frame.size bufSize).map fun bs => (acc.1, acc.2 ++ bs)
  | Route.skip => some acc

/-- `DemuxSinglePartition` (demux/demux.go lines 56-148), as the pair of byte
sequences written to the (optional) video and audio sinks. `haveVideo`/
`haveAudio` model `videoFile != nil` / `audioFile != nil`. `none` models
`log.Fatal` or a panic while processing some frame. -/
def DemuxSinglePartition (file : List Nat) (partition : UbvPartition)
    (haveVideo : Bool) (videoTrackNum : Int) (haveAudio : Bool) :
    Option (List Nat × List Nat) :=
  let bufSize := bufferSize partition.frames
  let init : List Nat × List Nat := (if haveVideo then [0, 0, 0, 1] else [], [])
  partition.frames.foldlM (demuxStep file videoTrackNum haveVideo haveAudio bufSize) init

/-! ## Failure-kind refinement of the extractor

The `Option`-valued extractor above identifies the two ways a run can die.
For the sink lifecycle they differ: `log.Fatal` is `os.Exit(1)`, which runs
NO deferred functions, while a Go runtime panic (an out-of-range slice bound
such as `buffer[0:nalSize]` with a negative `nalSize`) unwinds the stack and
DOES run the deferred functions registered by the caller. The `…E` variants
below are the same code paths with the failure kind recorded; the lemmas
`nalLoopE_toOption`, `audioFrameReadE_toOption` and
`DemuxSinglePartitionE_toOption` prove that they project exactly onto the
`Option`-valued definitions. -/

/-- How an extraction run aborts: `fatal` is `log.Fatal` → `os.Exit(1)` (no
deferred function runs); `panicked` is a runtime panic (deferred functions
run while unwinding). -/
inductive DemuxAbort where
  | fatal
  | panicked
deriving DecidableEq, Repr

/-- `nalLoopF` with the failure kind recorded: a seek/read failure or the
line-94 bounds check is `log.Fatal`; `buffer[0:nalSize]` with `nalSize`
negative or beyond the scratch buffer is a runtime panic (the slice
expression is evaluated before `io.ReadFull` is called). -/
def nalLoopFE (file : List Nat) (offset size bufSize : Int) :
    Nat → Int → Except DemuxAbort (List Nat)
  | 0, _ => Except.error DemuxAbort.fatal
  | fuel + 1, c =>
    if c < size then
      match readBE32 file (offset + c) with
      | none => Except.error DemuxAbort.fatal
      | some n =>
        let nalSize : Int := toInt32 n
        if size < c + nalSize then Except.error DemuxAbort.fatal
        else if nalSize < 0 then Except.error DemuxAbort.panicked
        else if bufSize < nalSize then Except.error DemuxAbort.panicked
        else
          match readBytes file (offset + c + 4) nalSize.toNat with
          | none => Except.error DemuxAbort.fatal
          | some payload =>
            match nalLoopFE file offset size bufSize fuel (c + 4 + nalSize) with
            | Except.error e => Except.error e
            | Except.ok rest => Except.ok (payload ++ ([0, 0, 0, 1] ++ rest))
    else Except.ok []

/-- `nalLoop` with the failure kind recorded. -/
def nalLoopE (file : List Nat) (offset size bufSize c : Int) :
    Except DemuxAbort (List Nat) :=
  nalLoopFE file offset size bufSize ((size - c).toNat + 1) c

/-- `audioFrameRead` with the failure kind recorded: a seek to a negative
offset or a short read is `log.Fatal`; `buffer[0:frame.Size]` with a negative
or buffer-exceeding size is a runtime panic. -/
def audioFrameReadE (file : List Nat) (offset size bufSize : Int) :
    Except DemuxAbort (List Nat) :=
  if offset < 0 then Except.error DemuxAbort.fatal
  else if size < 0 then Except.error DemuxAbort.panicked
  else if bufSize < size then Except.error DemuxAbort.panicked
  else
    match readBytes file offset size.toNat with
    | none => Except.error DemuxAbort.fatal
    | some bs => Except.ok bs

/-- `demuxStep` with the failure kind recorded. -/
def demuxStepE (file : List Nat) (videoTrackNum : Int) (haveVideo haveAudio : Bool)
    (bufSize : Int) (acc : List Nat × List Nat) (frame : UbvFrame) :
    Except DemuxAbort (List Nat × List Nat) :=
  match routeFrame frame haveVideo videoTrackNum haveAudio with
  | Route.video =>
    (nalLoopE file frame.offset frame.size bufSize 0).map fun bs => (acc.1 ++ bs, acc.2)
  | Route.audio =>
    (audioFrameReadE file frame.offset frame.size bufSize).map fun bs => (acc.1, acc.2 ++ bs)
  | Route.skip => Except.ok acc

/-- `DemuxSinglePartition` with the failure kind recorded. -/
def DemuxSinglePartitionE (file : List Nat) (partition : UbvPartition)
    (haveVideo : Bool) (videoTrackNum : Int) (haveAudio : Bool) :
    Except DemuxAbort (List Nat × List Nat) :=
  let bufSize := bufferSize partition.frames
  let init : List Nat × List Nat := (if haveVideo then [0, 0, 0, 1] else [], [])
  partition.frames.foldlM (demuxStepE file videoTrackNum haveVideo haveAudio bufSize) init

/-! ## Sink lifecycle (demux/demux.go lines 12-53 and 139-147)

`DemuxSinglePartitionToNewFiles` opens the sinks with `defer Close` /
`defer Flush`; `DemuxSinglePartition` flushes explicitly at its end. A
`log.Fatal` anywhere calls `os.Exit(1)`, and Go runs no deferred functions on
`os.Exit`, so the trace of a fatal run ends immediately. A runtime panic, by
contrast, unwinds through `DemuxSinglePartitionToNewFiles` and runs its
deferred `Flush`/`Close` calls in LIFO order before the process dies. -/

inductive SinkId where
  | video
  | audio
deriving DecidableEq, Repr, Fintype

inductive SinkEvent where
  | opened (s : SinkId)
  | flushed (s : SinkId)
  | closed (s : SinkId)
  | fatalExit
  | panicExit
  | returned
deriving DecidableEq, Repr

/-- The `os.Create` events of demux/demux.go lines 25 and 40, in program
order (video sink first). -/
def sinkOpens (vOpen aOpen : Bool) : List SinkEvent :=
  (if vOpen then [SinkEvent.opened SinkId.video] else []) ++
    (if aOpen then [SinkEvent.opened SinkId.audio] else [])

/-- The events of a successful extraction: the explicit flushes of
demux/demux.go lines 141-147 (audio first), then the deferred `Flush`/`Close`
pairs of lines 30-32 and 45-47 in LIFO order, then the return. -/
def sinkSuccessTrace (vOpen aOpen : Bool) : List SinkEvent :=
  sinkOpens vOpen aOpen ++
    (if aOpen then [SinkEvent.flushed SinkId.audio] else []) ++
    (if vOpen then [SinkEvent.flushed SinkId.video] else []) ++
    (if aOpen then [SinkEvent.flushed SinkId.audio, SinkEvent.closed SinkId.audio] else []) ++
    (if vOpen then [SinkEvent.flushed SinkId.video, SinkEvent.closed SinkId.video] else []) ++
    [SinkEvent.returned]

/-- The events of a fatal extraction: `log.Fatal` calls `os.Exit(1)`, and Go
runs no deferred functions on `os.Exit`, so no flush and no close happens. -/
def sinkFatalTrace (vOpen aOpen : Bool) : List SinkEvent :=
  sinkOpens vOpen aOpen ++ [SinkEvent.fatalExit]

/-- The events of a panicking extraction: the panic unwinds out of
`DemuxSinglePartition` (which registers no deferred functions, and whose
explicit end-of-function flushes are never reached) into
`DemuxSinglePartitionToNewFiles`, whose deferred `Flush`/`Close` calls of
demux/demux.go lines 30-32 and 45-47 run in LIFO order — audio flush, audio
close, video flush, video close — before the panic kills the process. -/
def sinkPanicTrace (vOpen aOpen : Bool) : List SinkEvent :=
  sinkOpens vOpen aOpen ++
    (if aOpen then [SinkEvent.flushed SinkId.audio, SinkEvent.closed SinkId.audio] else []) ++
    (if vOpen then [SinkEvent.flushed SinkId.video, SinkEvent.closed SinkId.video] else []) ++
    [SinkEvent.panicExit]

/-- `DemuxSinglePartitionToNewFiles` (demux/demux.go lines 12-53) as the
sequence of sink lifecycle events. A sink is opened when its filename is
non-empty and the partition has a track of its kind (lines 24, 39); the
trace of the run then depends on whether the extraction returns, dies by
`log.Fatal`, or dies by a runtime panic. -/
def DemuxSinglePartitionToNewFiles (file : List Nat) (haveVideoFilename : Bool)
    (videoTrackNum : Int) (haveAudioFilename : Bool) (partition : UbvPartition) :
    List SinkEvent :=
  match DemuxSinglePartitionE file partition
      (haveVideoFilename && decide (0 < partition.videoTrackCount)) videoTrackNum
      (haveAudioFilename && decide (0 < partition.audioTrackCount)) with
  | Except.error DemuxAbort.fatal =>
    sinkFatalTrace (haveVideoFilename && decide (0 < partition.videoTrackCount))
      (haveAudioFilename && decide (0 < partition.audioTrackCount))
  | Except.error DemuxAbort.panicked =>
    sinkPanicTrace (haveVideoFilename && decide (0 < partition.videoTrackCount))
      (haveAudioFilename && decide (0 < partition.audioTrackCount))
  | Except.ok _ =>
    sinkSuccessTrace (haveVideoFilename && decide (0 < partition.videoTrackCount))
      (haveAudioFilename && decide (0 < partition.audioTrackCount))

/-! ## Spec-side reference definitions (for the refinement claims) -/

/-- Spec §4.2 video framing transform, from the spec's words: repeatedly read
a 4-byte big-endian length `N` at the intra-frame cursor, validate
`cursor + 4 + N ≤ frame.size`, and collect the `N`-byte NAL payload (with
explicit fuel; `(size - c).toNat + 1` always suffices, see
`decodeNalPayloadsF_adequate`). -/
def decodeNalPayloadsF (file : List Nat) (offset size : Int) :
    Nat → Int → Option (List (List Nat))
  | 0, _ => none
  | fuel + 1, c =>
    if c < size then
      match readBE32 file (offset + c) with
      | none => none
      | some n =>
        if size < c + 4 + (n : Int) then none
        else
          match readBytes file (offset + c + 4) n with
          | none => none
          | some payload =>
            (decodeNalPayloadsF file offset size fuel (c + 4 + (n : Int))).map fun rest =>
              payload :: rest
    else some []

/-- Spec §4.2 NAL payload decoding of one frame, started with adequate fuel. -/
def decodeNalPayloads (file : List Nat) (offset size c : Int) : Option (List (List Nat)) :=
  decodeNalPayloadsF file offset size ((size - c).toNat + 1) c

/-- Spec-side video sink contents: an opening start code, then for each frame
of the selected video track, in file order, its decoded NAL payloads each
followed by a start code (spec §4.2). -/
def specVideoBytes (file : List Nat) (frames : List UbvFrame) (videoTrackNum : Int) :
    Option (List Nat) := do
  let decoded ← (frames.filter fun f => f.trackNumber = videoTrackNum).mapM
    fun f => decodeNalPayloads file f.offset f.size 0
  pure ([0, 0, 0, 1] ++ (decoded.map fun nals => (nals.map (· ++ [0, 0, 0, 1])).flatten).flatten)

/-- Spec-side audio sink contents: the byte slices `[offset, offset+size)` of
the UBV file of the partition's audio frames, concatenated in file order. -/
def specAudioBytes (file : List Nat) (frames : List UbvFrame) : List Nat :=
  ((frames.filter fun f => f.trackNumber = TrackAudio).map
    fun f => (file.drop f.offset.toNat).take f.size.toNat).flatten

/-! ## Alternative parsers for the line-discipline claim

`parseUbvInfoSpecC8` transcribes the claimed discipline (the first NON-EMPTY
line is the header); `parseUbvInfoFirstLineHeader` transcribes the amended
one (the first line, whatever its content, is the header). Both classify the
remaining lines exactly as ubv/ubvinfo.go lines 115-177 do. -/

/-- Remove the first non-empty line, keeping everything else. -/
def dropFirstNonEmpty : List String → List String
  | [] => []
  | l :: rest => if l = "" then l :: dropFirstNonEmpty rest else rest

/-- The sidecar line discipline as the claim words it: skip the first
non-empty line as the header, then classify every other line. -/
def parseUbvInfoSpecC8 (filename : String) (lines : List String) : Option UbvFile :=
  ((dropFirstNonEmpty lines).foldlM parseLineBody postHeaderState).map fun st =>
    { complete := true, filename := filename, partitions := listedPartitions st }

/-- The amended discipline: the first line is skipped unconditionally, then
every other line is classified. -/
def parseUbvInfoFirstLineHeader (filename : String) (lines : List String) : Option UbvFile :=
  ((lines.drop 1).foldlM parseLineBody postHeaderState).map fun st =>
    { complete := true, filename := filename, partitions := listedPartitions st }

/-! ## Invariants used to prove the rate property -/

/-- Rate invariant of a track while parsing: the probe window keeps length
32, the rate is never negative, and a video track that has consumed more
frames than the probe window holds has a positive rate. -/
def trackRateInv (t : UbvTrack) : Prop :=
  t.rateProbeWindow.length = 32 ∧
    (t.isVideo = true → 0 ≤ t.rate ∧ (32 < t.frameCount → 0 < t.rate))

def partitionTracksInv (p : UbvPartition) : Prop :=
  ∀ kv ∈ p.tracks, trackRateInv kv.2

def stateTracksInv (st : ParseState) : Prop :=
  partitionTracksInv st.current ∧ ∀ p ∈ st.partitions, partitionTracksInv p

/-! ## Intermediate track states of the rate probe -/

/-- The state of a fresh video track after consuming `j + 1` frame lines with
wall clocks `w0, w0 + d, …, w0 + j*d` and constant timebase `tbc`, where
every observed quotient `tbc / d` equals `k`. -/
def probeTrackState (tid w0 d tbc k : Int) (j : Nat) : UbvTrack :=
  { isVideo := true, trackNumber := tid,
    startTimecode := frameTimecodeNanos w0 tbc,
    frameCount := (j : Int) + 1,
    rate := 0,
    rateProbeWindow := 0 :: (List.replicate j k ++ List.replicate (31 - j) 0),
    rateProbeLastFrameWC := w0 + (j : Int) * d,
    lastTimecode := frameTimecodeNanos (w0 + (j : Int) * d) tbc }

/-! ## Concrete inputs for the witnesses and counterexamples -/

def demoFile : List Nat := [0, 0, 0, 2, 9, 8, 5, 6, 7]

/-- One video frame (one NAL of length 2) and one audio frame. -/
def demoPartition : UbvPartition :=
  { index := 0, frameCount := 2, tracks := [], videoTrackCount := 1,
    audioTrackCount := 1,
    frames := [{ trackNumber := 7, offset := 0, size := 6 },
               { trackNumber := 1000, offset := 6, size := 3 }] }

/-- A partition whose single video frame makes extraction fail fatally
against an empty UBV file. -/
def demoFatalPartition : UbvPartition :=
  { index := 0, frameCount := 1, tracks := [], videoTrackCount := 1,
    audioTrackCount := 0, frames := [{ trackNumber := 7, offset := 0, size := 6 }] }

/-- A partition with a video track but no frames: extraction succeeds. -/
def demoEmptyPartition : UbvPartition :=
  { index := 0, frameCount := 0, tracks := [], videoTrackCount := 1,
    audioTrackCount := 0, frames := [] }

/-- A partition whose single audio frame declares a negative size, so the
extraction dies with the `buffer[0:frame.Size]` runtime panic. -/
def demoPanicPartition : UbvPartition :=
  { index := 0, frameCount := 1, tracks := [], videoTrackCount := 0,
    audioTrackCount := 1,
    frames := [{ trackNumber := 1000, offset := 0, size := -1 }] }

def demoLinesC8 : List String :=
  ["", partitionStartMarker, " V 7 1 0 100 x x 1000 1000"]

/-- Header, one partition marker, one video frame line. -/
def demoLines1 : List String :=
  ["HDR", partitionStartMarker, " V 7 1 0 100 x x 1000 1000"]

def demoParsed1 : UbvFile := (parseUbvInfo "f" demoLines1).getD default

def demoPart1 : UbvPartition := demoParsed1.partitions.getD 0 default

def demoTrackKV1 : Int × UbvTrack := demoPart1.tracks.getD 0 default

/-- A sidecar frame line of track 7 at a given wall clock, timebase 30000. -/
def demoLine33 (wc : Nat) : String :=
  " V 7 1 0 100 x x " ++ toString wc ++ " 30000"

/-- Header, marker, then 33 video frame lines with wall clocks in arithmetic
progression of step 1000 (so every probed quotient is 30). -/
def demoLines33 : List String :=
  "HDR" :: partitionStartMarker ::
    ((List.range 33).map fun i => demoLine33 (1000 * (i + 1)))

def demoParsed33 : UbvFile := (parseUbvInfo "f" demoLines33).getD default

def demoPart33 : UbvPartition := demoParsed33.partitions.getD 0 default

def demoTrackKV33 : Int × UbvTrack := demoPart33.tracks.getD 0 default

/-- A video track about to leave the probe phase whose window mode is 30. -/
def demoTrackMode30 : UbvTrack :=
  { isVideo := true, trackNumber := 7, startTimecode := 0, frameCount := 32,
    rate := 0, rateProbeWindow := 0 :: List.replicate 31 30,
    rateProbeLastFrameWC := 0, lastTimecode := 0 }

/-- A video track about to leave the probe phase whose window mode is 0. -/
def demoTrackMode0 : UbvTrack :=
  { demoTrackMode30 with rateProbeWindow := List.replicate 32 0 }

/-- A video track about to leave the probe phase whose window mode is 100. -/
def demoTrackMode100 : UbvTrack :=
  { demoTrackMode30 with rateProbeWindow := 0 :: List.replicate 31 100 }

/-! ## Fuel irrelevance for the two cursor loops -/

theorem nalLoopF_irrel (file : List Nat) (offset size bufSize : Int) :
    ∀ (fuel₁ : Nat) (fuel₂ : Nat) (c : Int), (size - c).toNat < fuel₁ →
      (size - c).toNat < fuel₂ →
      nalLoopF file offset size bufSize fuel₁ c = nalLoopF file offset size bufSize fuel₂ c := by
  intro fuel₁
  induction fuel₁ with
  | zero => intro fuel₂ c h₁ h₂; omega
  | succ fuel₁ ih =>
    intro fuel₂ c h₁ h₂
    obtain ⟨fuel₂, rfl⟩ : ∃ k, fuel₂ = k + 1 := ⟨fuel₂ - 1, by omega⟩
    rw [nalLoopF, nalLoopF]
    by_cases hc : c < size
    · simp only [hc, if_true]
      cases hre : readBE32 file (offset + c) with
      | none => rfl
      | some n =>
        simp only
        by_cases hov : size < c + toInt32 n
        · simp only [hov, if_true]
        · simp only [hov, if_false]
          by_cases hneg : toInt32 n < 0
          · simp only [hneg, if_true]
          · simp only [hneg, if_false]
            by_cases hbuf : bufSize < toInt32 n
            · simp only [hbuf, if_true]
            · simp only [hbuf, if_false]
              cases hrb : readBytes file (offset + c + 4) (toInt32 n).toNat with
              | none => rfl
              | some payload =>
                simp only
                rw [ih fuel₂ (c + 4 + toInt32 n) (by omega) (by omega)]
    · simp only [hc, if_false]


theorem nalLoop_unfold (file : List Nat) (offset size bufSize c : Int) :
    nalLoop file offset size bufSize c =
      if c < size then
        match readBE32 file (offset + c) with
        | none => none
        | some n =>
          if size < c + toInt32 n then none
          else if toInt32 n < 0 then none
          else if bufSize < toInt32 n then none
          else
            match readBytes file (offset + c + 4) (toInt32 n).toNat with
            | none => none
            | some payload =>
              match nalLoop file offset size bufSize (c + 4 + toInt32 n) with
              | none => none
              | some rest => some (payload ++ ([0, 0, 0, 1] ++ rest))
      else some [] := by
  rw [nalLoop, nalLoopF]
  by_cases hc : c < size
  · simp only [hc, if_true]
    cases hre : readBE32 file (offset + c) with
    | none => rfl
    | some n =>
      simp only
      by_cases hov : size < c + toInt32 n
      · simp only [hov, if_true]
      · simp only [hov, if_false]
        by_cases hneg : toInt32 n < 0
        · simp only [hneg, if_true]
        · simp only [hneg, if_false]
          by_cases hbuf : bufSize < toInt32 n
          · simp only [hbuf, if_true]
          · simp only [hbuf, if_false]
            cases hrb : readBytes file (offset + c + 4) (toInt32 n).toNat with
            | none => rfl
            | some payload =>
              simp only
              rw [nalLoopF_irrel file offset size bufSize ((size - c).toNat)
                ((size - (c + 4 + toInt32 n)).toNat + 1) (c + 4 + toInt32 n)
                (by omega) (by omega)]
              rfl
  · simp only [hc, if_false]

theorem decodeNalPayloadsF_irrel (file : List Nat) (offset size : Int) :
    ∀ (fuel₁ : Nat) (fuel₂ : Nat) (c : Int), (size - c).toNat < fuel₁ →
      (size - c).toNat < fuel₂ →
      decodeNalPayloadsF file offset size fuel₁ c = decodeNalPayloadsF file offset size fuel₂ c := by
  intro fuel₁
  induction fuel₁ with
  | zero => intro fuel₂ c h₁ h₂; omega
  | succ fuel₁ ih =>
    intro fuel₂ c h₁ h₂
    obtain ⟨fuel₂, rfl⟩ : ∃ k, fuel₂ = k + 1 := ⟨fuel₂ - 1, by omega⟩
    rw [decodeNalPayloadsF, decodeNalPayloadsF]
    by_cases hc : c < size
    · simp only [hc, if_true]
      cases hre : readBE32 file (offset + c) with
      | none => rfl
      | some n =>
        simp only
        by_cases hov : size < c + 4 + (n : Int)
        · simp only [hov, if_true]
        · simp only [hov, if_false]
          cases hrb : readBytes file (offset + c + 4) n with
          | none => rfl
          | some payload =>
            simp only
            rw [ih fuel₂ (c + 4 + (n : Int)) (by omega) (by omega)]
    · simp only [hc, if_false]

theorem decodeNalPayloads_unfold (file : List Nat) (offset size c : Int) :
    decodeNalPayloads file offset size c =
      if c < size then
        match readBE32 file (offset + c) with
        | none => none
        | some n =>
          if size < c + 4 + (n : Int) then none
          else
            match readBytes file (offset + c + 4) n with
            | none => none
            | some payload =>
              (decodeNalPayloads file offset size (c + 4 + (n : Int))).map fun rest =>
                payload :: rest
      else some [] := by
  rw [decodeNalPayloads, decodeNalPayloadsF]
  by_cases hc : c < size
  · simp only [hc, if_true]
    cases hre : readBE32 file (offset + c) with
    | none => rfl
    | some n =>
      simp only
      by_cases hov : size < c + 4 + (n : Int)
      · simp only [hov, if_true]
      · simp only [hov, if_false]
        cases hrb : readBytes file (offset + c + 4) n with
        | none => rfl
        | some payload =>
          simp only
          rw [decodeNalPayloadsF_irrel file offset size ((size - c).toNat)
            ((size - (c + 4 + (n : Int))).toNat + 1) (c + 4 + (n : Int))
            (by omega) (by omega)]
          rfl
  · simp only [hc, if_false]

/-! ## Frame routing lemmas (shared) -/

theorem routeFrame_video_iff (f : UbvFrame) (hv : Bool) (vtn : Int) (ha : Bool) :
    routeFrame f hv vtn ha = Route.video ↔ f.trackNumber = vtn ∧ hv = true := by
  unfold routeFrame
  split_ifs with h1 h2 <;> simp_all

theorem routeFrame_audio_iff (f : UbvFrame) (hv : Bool) (vtn : Int) (ha : Bool) :
    routeFrame f hv vtn ha = Route.audio ↔
      f.trackNumber = TrackAudio ∧ ha = true ∧ ¬(f.trackNumber = vtn ∧ hv = true) := by
  unfold routeFrame
  split_ifs with h1 h2 <;> simp_all

theorem routeFrame_skip_iff (f : UbvFrame) (hv : Bool) (vtn : Int) (ha : Bool) :
    routeFrame f hv vtn ha = Route.skip ↔
      ¬(f.trackNumber = vtn ∧ hv = true) ∧ ¬(f.trackNumber = TrackAudio ∧ ha = true) := by
  unfold routeFrame
  split_ifs with h1 h2 <;> simp_all

/-! ## Claim C2 (code_bug evidence) -/

/-- Claim C2: the claim (and the spec, and the code's own comment `Warn if we
would read beyond this Frame`) require a fatal error when
`cursor + 4 + length > frame.size`, but the check at demux/demux.go line 94
is `frameDataRead + int(nalSize) > frame.Size`, i.e. without the `+ 4` for
the length prefix itself. On a frame of declared size 6 whose single NAL
declares length 4 (so `cursor + 4 + length = 8 > 6`), the extractor does not
fail: it reads the two bytes beyond the declared frame bounds and emits the
NAL, while the spec-side decoder rejects the frame. -/
theorem C2_bounds_check_off_by_four :
    nalLoop [0, 0, 0, 4, 1, 2, 3, 4] 0 6 6 0 = some [1, 2, 3, 4, 0, 0, 0, 1] ∧
    (0 : Int) + 4 + 4 > 6 ∧
    decodeNalPayloads [0, 0, 0, 4, 1, 2, 3, 4] 0 6 0 = none := by
  decide

/-! ## Claim C4 (corrected) -/

/-- Claim C4 counterexample: for `WC = 1`, `WC_TBC = 3` the code records
`333000000` nanoseconds (millisecond-truncated arithmetic), not
`(1 * 1000000000) / 3 = 333333333` nanoseconds as the claim states. -/
theorem C4_counterexample :
    frameTimecodeNanos 1 3 = 333000000 ∧
    Int.tdiv (1 * 1000000000) 3 = 333333333 ∧
    ¬ frameTimecodeNanos 1 3 = Int.tdiv (1 * 1000000000) 3 := by
  decide

theorem wrap64_eq_self (x : Int) (h1 : -(2 ^ 63) ≤ x) (h2 : x < 2 ^ 63) :
    wrap64 x = x := by
  unfold wrap64
  omega

theorem tdiv_bounds (a b : Int) (hb : 0 < b) (h1 : -(2 ^ 63) ≤ a)
    (h2 : a < 2 ^ 63) : -(2 ^ 63) ≤ Int.tdiv a b ∧ Int.tdiv a b < 2 ^ 63 := by
  rcases le_or_lt 0 a with ha | ha
  · have hnn : 0 ≤ Int.tdiv a b := Int.tdiv_nonneg ha (le_of_lt hb)
    have hle : Int.tdiv a b ≤ a := by
      rw [Int.tdiv_eq_ediv ha (le_of_lt hb)]
      exact Int.ediv_le_self b ha
    constructor <;> omega
  · have hna : 0 ≤ -a := by omega
    have hnn : 0 ≤ Int.tdiv (-a) b := Int.tdiv_nonneg hna (le_of_lt hb)
    have hle : Int.tdiv (-a) b ≤ -a := by
      rw [Int.tdiv_eq_ediv hna (le_of_lt hb)]
      exact Int.ediv_le_self b hna
    have hneg : Int.tdiv (-a) b = -Int.tdiv a b := Int.neg_tdiv a b
    constructor <;> omega

/-- Claim C4 (amended): for every parsed frame line with wall-clock `wc` and
positive timebase `tbc`, the instant recorded for the frame (used for
`start_tc` and `last_tc`) is the Unix epoch plus `utcMillis` milliseconds —
`utcMillis * 1000000` nanoseconds — where `utcMillis` is `(wc * 1000) / tbc`
computed in wrapping `int64` arithmetic with truncated division; whenever
`wc * 1000` fits in `int64` (every realistic wall clock), this is exactly
`((wc * 1000) tdiv tbc) * 1000000` nanoseconds, i.e. millisecond — not
nanosecond — precision; and `extractTimecodeAndRateCore` indeed stamps
`lastTimecode` with exactly this instant. -/
theorem C4_millisecond_truncation (wc tbc : Int) (h : 0 < tbc) :
    frameTimecodeNanos wc tbc =
      wrap64 (Int.tdiv (wrap64 (wc * 1000)) tbc) * 1000000 ∧
    (-(2 ^ 63) ≤ wc * 1000 → wc * 1000 < 2 ^ 63 →
      frameTimecodeNanos wc tbc = Int.tdiv (wc * 1000) tbc * 1000000) ∧
    ∀ track t2 : UbvTrack, extractTimecodeAndRateCore wc tbc track = some t2 →
      t2.lastTimecode = frameTimecodeNanos wc tbc := by
  have hmain : frameTimecodeNanos wc tbc =
      wrap64 (Int.tdiv (wrap64 (wc * 1000)) tbc) * 1000000 := by
    simp only [frameTimecodeNanos]
    have h2 := Int.tdiv_add_tmod (wrap64 (Int.tdiv (wrap64 (wc * 1000)) tbc)) 1000
    linarith
  refine ⟨hmain, fun h1 h2 => ?_, fun track t2 ht => ?_⟩
  · rw [hmain, wrap64_eq_self (wc * 1000) h1 h2]
    have hb := tdiv_bounds (wc * 1000) tbc h h1 h2
    rw [wrap64_eq_self _ hb.1 hb.2]
  · simp only [extractTimecodeAndRateCore, if_neg (show ¬ tbc = 0 by omega)] at ht
    rw [Option.map_eq_some'] at ht
    obtain ⟨t1, -, ht2⟩ := ht
    rw [← ht2]

/-- Witness for `C4_millisecond_truncation` at `wc = 1`, `tbc = 3` and an
audio track. -/
theorem C4_millisecond_truncation_witness :
    frameTimecodeNanos 1 3 = Int.tdiv (1 * 1000) 3 * 1000000 ∧
    (newUbvTrack false 1000).lastTimecode = 0 := by
  refine ⟨(C4_millisecond_truncation 1 3 (by decide)).2.1 (by decide) (by decide),
    by decide⟩

/-! ## Claim C7 (corrected) -/

/-- Claim C7 counterexample: with the selected video track id 1000 (the audio
track id) and both sinks provided, a frame of track 1000 is routed to the
video sink, although the claim's audio clause (`track_id = 1000` and an
audio sink was provided) demands it be routed to the audio sink. -/
theorem C7_counterexample :
    routeFrame { trackNumber := 1000, offset := 0, size := 1 } true 1000 true =
      Route.video ∧
    ({ trackNumber := 1000, offset := 0, size := 1 } : UbvFrame).trackNumber =
      TrackAudio ∧
    ¬ routeFrame { trackNumber := 1000, offset := 0, size := 1 } true 1000 true =
      Route.audio := by
  decide

/-- Claim C7 (amended): a frame is routed to the video sink iff its track id
equals the selected video track id and a video sink was provided; it is
routed to the audio sink iff its track id is 1000, an audio sink was
provided, AND it was not routed to the video sink; otherwise it is skipped.
Consequently, the number of frames routed to the video sink equals the number
of frames whose track id is the selected video id, and the number routed to
the audio sink equals the number of audio-track frames not claimed by the
video sink. -/
theorem C7_routing (f : UbvFrame) (hv : Bool) (vtn : Int) (ha : Bool)
    (frames : List UbvFrame) :
    (routeFrame f hv vtn ha = Route.video ↔ f.trackNumber = vtn ∧ hv = true) ∧
    (routeFrame f hv vtn ha = Route.audio ↔
      f.trackNumber = TrackAudio ∧ ha = true ∧ ¬(f.trackNumber = vtn ∧ hv = true)) ∧
    (routeFrame f hv vtn ha = Route.skip ↔
      ¬(f.trackNumber = vtn ∧ hv = true) ∧ ¬(f.trackNumber = TrackAudio ∧ ha = true)) ∧
    (hv = true →
      (frames.filter fun fr => routeFrame fr hv vtn ha = Route.video).length =
        (frames.filter fun fr => fr.trackNumber = vtn).length) ∧
    (ha = true →
      (frames.filter fun fr => routeFrame fr hv vtn ha = Route.audio).length =
        (frames.filter fun fr =>
          fr.trackNumber = TrackAudio ∧ ¬(fr.trackNumber = vtn ∧ hv = true)).length) := by
  refine ⟨routeFrame_video_iff f hv vtn ha, routeFrame_audio_iff f hv vtn ha,
    routeFrame_skip_iff f hv vtn ha, ?_, ?_⟩
  · intro hhv
    subst hhv
    congr 1
    refine List.filter_congr fun fr _ => ?_
    rw [decide_eq_decide]
    rw [routeFrame_video_iff]
    simp
  · intro hha
    subst hha
    congr 1
    refine List.filter_congr fun fr _ => ?_
    rw [decide_eq_decide]
    rw [routeFrame_audio_iff]
    simp

/-- Witness for `C7_routing`: with video track 7 and both sinks, the demo
partition routes its video frame to the video sink and its audio frame to
the audio sink, and the per-sink counts match. -/
theorem C7_routing_witness :
    routeFrame { trackNumber := 7, offset := 0, size := 6 } true 7 true =
      Route.video ∧
    (demoPartition.frames.filter fun fr => routeFrame fr true 7 true = Route.video).length =
      (demoPartition.frames.filter fun fr => fr.trackNumber = 7).length ∧
    (demoPartition.frames.filter fun fr => routeFrame fr true 7 true = Route.audio).length =
      (demoPartition.frames.filter fun fr =>
        fr.trackNumber = TrackAudio ∧ ¬(fr.trackNumber = 7 ∧ true = true)).length := by
  refine ⟨?_, (C7_routing default true 7 true demoPartition.frames).2.2.2.1 rfl,
    (C7_routing default true 7 true demoPartition.frames).2.2.2.2 rfl⟩
  exact (routeFrame_video_iff _ _ _ _).mpr ⟨rfl, rfl⟩

/-! ## The failure-kind refinement projects onto the Option-valued extractor -/

theorem nalLoopFE_toOption (file : List Nat) (offset size bufSize : Int) :
    ∀ (fuel : Nat) (c : Int),
      (nalLoopFE file offset size bufSize fuel c).toOption =
        nalLoopF file offset size bufSize fuel c := by
  intro fuel
  induction fuel with
  | zero => intro c; rfl
  | succ n ih =>
    intro c
    unfold nalLoopFE nalLoopF
    by_cases hc : c < size
    · rw [if_pos hc, if_pos hc]
      cases hr : readBE32 file (offset + c) with
      | none => rfl
      | some m =>
        dsimp only
        by_cases h1 : size < c + toInt32 m
        · rw [if_pos h1, if_pos h1]; rfl
        · rw [if_neg h1, if_neg h1]
          by_cases h2 : toInt32 m < 0
          · rw [if_pos h2, if_pos h2]; rfl
          · rw [if_neg h2, if_neg h2]
            by_cases h3 : bufSize < toInt32 m
            · rw [if_pos h3, if_pos h3]; rfl
            · rw [if_neg h3, if_neg h3]
              cases hb : readBytes file (offset + c + 4) (toInt32 m).toNat with
              | none => rfl
              | some payload =>
                dsimp only
                rw [← ih (c + 4 + toInt32 m)]
                cases nalLoopFE file offset size bufSize n (c + 4 + toInt32 m) with
                | error e => rfl
                | ok rest => rfl
    · rw [if_neg hc, if_neg hc]; rfl

theorem nalLoopE_toOption (file : List Nat) (offset size bufSize c : Int) :
    (nalLoopE file offset size bufSize c).toOption =
      nalLoop file offset size bufSize c :=
  nalLoopFE_toOption file offset size bufSize _ c

theorem audioFrameReadE_toOption (file : List Nat) (offset size bufSize : Int) :
    (audioFrameReadE file offset size bufSize).toOption =
      audioFrameRead file offset size bufSize := by
  unfold audioFrameReadE audioFrameRead
  by_cases h1 : offset < 0
  · rw [if_pos h1, if_pos h1]; rfl
  · rw [if_neg h1, if_neg h1]
    by_cases h2 : size < 0
    · rw [if_pos h2, if_pos h2]; rfl
    · rw [if_neg h2, if_neg h2]
      by_cases h3 : bufSize < size
      · rw [if_pos h3, if_pos h3]; rfl
      · rw [if_neg h3, if_neg h3]
        cases readBytes file offset size.toNat with
        | none => rfl
        | some bs => rfl

theorem demuxStepE_toOption (file : List Nat) (vtn : Int) (hv ha : Bool)
    (bufSize : Int) (acc : List Nat × List Nat) (frame : UbvFrame) :
    (demuxStepE file vtn hv ha bufSize acc frame).toOption =
      demuxStep file vtn hv ha bufSize acc frame := by
  unfold demuxStepE demuxStep
  cases routeFrame frame hv vtn ha with
  | video =>
    rw [← nalLoopE_toOption file frame.offset frame.size bufSize 0]
    cases nalLoopE file frame.offset frame.size bufSize 0 with
    | error e => rfl
    | ok bs => rfl
  | audio =>
    rw [← audioFrameReadE_toOption file frame.offset frame.size bufSize]
    cases audioFrameReadE file frame.offset frame.size bufSize with
    | error e => rfl
    | ok bs => rfl
  | skip => rfl

theorem foldlM_demuxStepE_toOption (file : List Nat) (vtn : Int) (hv ha : Bool)
    (bufSize : Int) :
    ∀ (frames : List UbvFrame) (init : List Nat × List Nat),
      (frames.foldlM (demuxStepE file vtn hv ha bufSize) init).toOption =
        frames.foldlM (demuxStep file vtn hv ha bufSize) init := by
  intro frames
  induction frames with
  | nil => intro init; rfl
  | cons f fs ih =>
    intro init
    rw [List.foldlM_cons, List.foldlM_cons]
    rw [← demuxStepE_toOption file vtn hv ha bufSize init f]
    cases demuxStepE file vtn hv ha bufSize init f with
    | error e => rfl
    | ok acc1 => exact ih acc1

theorem DemuxSinglePartitionE_toOption (file : List Nat) (partition : UbvPartition)
    (hv : Bool) (vtn : Int) (ha : Bool) :
    (DemuxSinglePartitionE file partition hv vtn ha).toOption =
      DemuxSinglePartition file partition hv vtn ha :=
  foldlM_demuxStepE_toOption file vtn hv ha (bufferSize partition.frames)
    partition.frames _

/-! ## Claim C6 (corrected) -/

theorem sinkTrace_events : ∀ v a : Bool,
    (∀ s, SinkEvent.opened s ∈ sinkSuccessTrace v a →
      SinkEvent.flushed s ∈ sinkSuccessTrace v a ∧
        SinkEvent.closed s ∈ sinkSuccessTrace v a) ∧
    (∀ s, SinkEvent.opened s ∈ sinkPanicTrace v a →
      SinkEvent.flushed s ∈ sinkPanicTrace v a ∧
        SinkEvent.closed s ∈ sinkPanicTrace v a) ∧
    SinkEvent.fatalExit ∉ sinkSuccessTrace v a ∧
    SinkEvent.fatalExit ∉ sinkPanicTrace v a ∧
    SinkEvent.returned ∉ sinkFatalTrace v a ∧
    SinkEvent.returned ∉ sinkPanicTrace v a ∧
    SinkEvent.panicExit ∉ sinkSuccessTrace v a ∧
    SinkEvent.panicExit ∉ sinkFatalTrace v a ∧
    (∀ s, SinkEvent.flushed s ∉ sinkFatalTrace v a ∧
      SinkEvent.closed s ∉ sinkFatalTrace v a) := by
  decide

/-- Claim C6 counterexample: extracting `demoFatalPartition` from an empty
UBV file opens the video sink and then hits a fatal error (short read of the
NAL length); `log.Fatal` calls `os.Exit(1)`, which runs no deferred
functions, so the opened sink is neither flushed nor closed before the
process terminates — contradicting the claim that every opened sink is
flushed and released on every exit path. -/
theorem C6_counterexample :
    DemuxSinglePartitionToNewFiles [] true 7 false demoFatalPartition =
      [SinkEvent.opened SinkId.video, SinkEvent.fatalExit] ∧
    SinkEvent.opened SinkId.video ∈
      DemuxSinglePartitionToNewFiles [] true 7 false demoFatalPartition ∧
    SinkEvent.flushed SinkId.video ∉
      DemuxSinglePartitionToNewFiles [] true 7 false demoFatalPartition ∧
    SinkEvent.closed SinkId.video ∉
      DemuxSinglePartitionToNewFiles [] true 7 false demoFatalPartition := by
  decide

/-- Claim C6 (amended): on every exit path on which Go runs deferred
functions — a normal return, or the unwinding of a runtime panic — every
opened sink is flushed and closed; on a `log.Fatal` exit path (`os.Exit(1)`
runs no deferred functions) NO sink is flushed or closed before the process
terminates. -/
theorem C6_flush_discipline (file : List Nat) (partition : UbvPartition)
    (hvf haf : Bool) (vtn : Int) :
    (SinkEvent.returned ∈ DemuxSinglePartitionToNewFiles file hvf vtn haf partition →
      ∀ s, SinkEvent.opened s ∈ DemuxSinglePartitionToNewFiles file hvf vtn haf partition →
        SinkEvent.flushed s ∈ DemuxSinglePartitionToNewFiles file hvf vtn haf partition ∧
          SinkEvent.closed s ∈ DemuxSinglePartitionToNewFiles file hvf vtn haf partition) ∧
    (SinkEvent.panicExit ∈ DemuxSinglePartitionToNewFiles file hvf vtn haf partition →
      ∀ s, SinkEvent.opened s ∈ DemuxSinglePartitionToNewFiles file hvf vtn haf partition →
        SinkEvent.flushed s ∈ DemuxSinglePartitionToNewFiles file hvf vtn haf partition ∧
          SinkEvent.closed s ∈ DemuxSinglePartitionToNewFiles file hvf vtn haf partition) ∧
    (SinkEvent.fatalExit ∈ DemuxSinglePartitionToNewFiles file hvf vtn haf partition →
      ∀ s, SinkEvent.flushed s ∉ DemuxSinglePartitionToNewFiles file hvf vtn haf partition ∧
        SinkEvent.closed s ∉ DemuxSinglePartitionToNewFiles file hvf vtn haf partition) := by
  unfold DemuxSinglePartitionToNewFiles
  cases hE : DemuxSinglePartitionE file partition
      (hvf && decide (0 < partition.videoTrackCount)) vtn
      (haf && decide (0 < partition.audioTrackCount)) with
  | ok r =>
    exact ⟨fun _ => (sinkTrace_events _ _).1,
      fun hp => absurd hp ((sinkTrace_events _ _).2.2.2.2.2.2.1),
      fun hf => absurd hf ((sinkTrace_events _ _).2.2.1)⟩
  | error e =>
    cases e with
    | fatal =>
      exact ⟨fun hret => absurd hret ((sinkTrace_events _ _).2.2.2.2.1),
        fun hp => absurd hp ((sinkTrace_events _ _).2.2.2.2.2.2.2.1),
        fun _ => (sinkTrace_events _ _).2.2.2.2.2.2.2.2⟩
    | panicked =>
      exact ⟨fun hret => absurd hret ((sinkTrace_events _ _).2.2.2.2.2.1),
        fun _ => (sinkTrace_events _ _).2.1,
        fun hf => absurd hf ((sinkTrace_events _ _).2.2.2.1)⟩

/-- Witness for `C6_flush_discipline`: a successful extraction of an empty
partition flushes and closes the opened video sink, and a panicking
extraction (an audio frame declaring a negative size) flushes and closes the
opened audio sink through the deferred calls run while unwinding. -/
theorem C6_flush_discipline_witness :
    (SinkEvent.flushed SinkId.video ∈
        DemuxSinglePartitionToNewFiles [] true 7 false demoEmptyPartition ∧
      SinkEvent.closed SinkId.video ∈
        DemuxSinglePartitionToNewFiles [] true 7 false demoEmptyPartition) ∧
    (SinkEvent.flushed SinkId.audio ∈
        DemuxSinglePartitionToNewFiles [] false 7 true demoPanicPartition ∧
      SinkEvent.closed SinkId.audio ∈
        DemuxSinglePartitionToNewFiles [] false 7 true demoPanicPartition) := by
  exact ⟨(C6_flush_discipline [] demoEmptyPartition true false 7).1 (by decide)
      SinkId.video (by decide),
    (C6_flush_discipline [] demoPanicPartition false true 7).2.1 (by decide)
      SinkId.audio (by decide)⟩

/-! ## Parser line-discipline lemmas (shared) -/

theorem parseLineBody_firstLine (st : ParseState) (line : String) (st2 : ParseState)
    (h : parseLineBody st line = some st2) : st2.firstLine = st.firstLine := by
  unfold parseLineBody at h
  split at h
  · injection h with h
    subst h
    rfl
  · split at h
    · injection h with h; subst h; rfl
    · split at h
      · rw [Option.map_eq_some'] at h
        obtain ⟨p, -, h⟩ := h
        subst h
        rfl
      · injection h with h; subst h; rfl

theorem foldlM_parseLine_eq_body :
    ∀ (lines : List String) (st : ParseState), st.firstLine = false →
      lines.foldlM parseLine st = lines.foldlM parseLineBody st := by
  intro lines
  induction lines with
  | nil => intro st _; rfl
  | cons l rest ih =>
    intro st hst
    rw [List.foldlM_cons, List.foldlM_cons]
    have hl : parseLine st l = parseLineBody st l := by
      rw [parseLine, if_neg]
      rw [hst]
      exact Bool.false_ne_true
    rw [hl]
    cases hb : parseLineBody st l with
    | none => rfl
    | some st2 =>
      show List.foldlM parseLine st2 rest = List.foldlM parseLineBody st2 rest
      exact ih st2 (by rw [parseLineBody_firstLine st l st2 hb, hst])

/-- `parseUbvInfo` on a non-empty line list: the head is consumed as the
header, the tail drives `parseLineBody` from the post-header state. -/
theorem parseUbvInfo_cons (filename h : String) (L : List String) :
    parseUbvInfo filename (h :: L) =
      (L.foldlM parseLineBody postHeaderState).map fun st =>
        { complete := true, filename := filename, partitions := listedPartitions st } := by
  unfold parseUbvInfo
  rw [List.foldlM_cons]
  have h1 : parseLine initParseState h = some postHeaderState := rfl
  rw [h1]
  show (List.foldlM parseLine postHeaderState L).map _ = _
  rw [foldlM_parseLine_eq_body L postHeaderState rfl]

/-! ## Claim C8 (corrected) -/

/-- Claim C8 counterexample: on the input whose first line is empty, second
line is the partition marker and third line is a frame line, the code (which
skips the FIRST line, empty or not, as the header) produces one partition,
while the claimed discipline (the first NON-EMPTY line — here the marker —
is the header and is skipped) produces zero partitions. -/
theorem C8_counterexample :
    (parseUbvInfo "f" demoLinesC8).map (fun u => u.partitions.length) = some 1 ∧
    (parseUbvInfoSpecC8 "f" demoLinesC8).map (fun u => u.partitions.length) = some 0 := by
  decide

/-- Claim C8 (amended): the FIRST line of the stream — whatever its content,
including an empty line — is treated as the header and skipped; afterwards,
every line equal exactly to the partition-start marker begins a new
partition, every non-empty line beginning with whitespace is parsed as a
frame, and every other line is ignored (`parseUbvInfoFirstLineHeader`
transcribes exactly this discipline). -/
theorem C8_line_discipline (filename : String) (lines : List String) :
    parseUbvInfo filename lines = parseUbvInfoFirstLineHeader filename lines := by
  cases lines with
  | nil => rfl
  | cons h rest =>
    rw [parseUbvInfo_cons]
    rfl

/-! ## Claim C10 (confirmed) -/

theorem parseLineBody_nonmarker (st : ParseState) (line : String) (st2 : ParseState)
    (hm : line ≠ partitionStartMarker) (h : parseLineBody st line = some st2) :
    st2.partitions = st.partitions ∧ st2.currentListed = st.currentListed ∧
      st2.firstLine = st.firstLine := by
  unfold parseLineBody at h
  rw [if_neg hm] at h
  split at h
  · injection h with h; subst h; exact ⟨rfl, rfl, rfl⟩
  · split at h
    · rw [Option.map_eq_some'] at h
      obtain ⟨p, -, h⟩ := h
      subst h
      exact ⟨rfl, rfl, rfl⟩
    · injection h with h; subst h; exact ⟨rfl, rfl, rfl⟩

theorem noMarker_fold_preserves :
    ∀ (pre : List String) (st0 st : ParseState),
      (∀ l ∈ pre, l ≠ partitionStartMarker) →
      pre.foldlM parseLineBody st0 = some st →
      st.partitions = st0.partitions ∧ st.currentListed = st0.currentListed ∧
        st.firstLine = st0.firstLine := by
  intro pre
  induction pre with
  | nil =>
    intro st0 st _ h
    injection h with h
    subst h
    exact ⟨rfl, rfl, rfl⟩
  | cons l rest ih =>
    intro st0 st hm h
    rw [List.foldlM_cons] at h
    cases hb : parseLineBody st0 l with
    | none => rw [hb] at h; exact absurd h (by simp)
    | some st1 =>
      rw [hb] at h
      have h2 : List.foldlM parseLineBody st1 rest = some st := h
      obtain ⟨h1, h2b, h3⟩ := parseLineBody_nonmarker st0 l st1 (hm l (List.mem_cons_self l rest)) hb
      obtain ⟨g1, g2, g3⟩ := ih st1 st (fun x hx => hm x (List.mem_cons_of_mem l hx)) h2
      exact ⟨g1.trans h1, g2.trans h2b, g3.trans h3⟩

theorem foldlM_append_option {α σ : Type} (f : σ → α → Option σ) :
    ∀ (l₁ l₂ : List α) (s : σ),
      (l₁ ++ l₂).foldlM f s = l₁.foldlM f s >>= fun s2 => l₂.foldlM f s2 := by
  intro l₁
  induction l₁ with
  | nil => intro l₂ s; rfl
  | cons x rest ih =>
    intro l₂ s
    rw [List.cons_append, List.foldlM_cons, List.foldlM_cons]
    cases f s x with
    | none => rfl
    | some s1 =>
      show List.foldlM f s1 (rest ++ l₂) = List.foldlM f s1 rest >>= fun s2 => List.foldlM f s2 l₂
      exact ih l₂ s1

/-- Claim C10: frame lines occurring before the first partition-start marker
are parsed (and their failures are fatal), but the frames they describe are
absent from the returned index: if the pre-marker lines (none of which is a
marker) process without a fatal error, the parse result is identical to the
parse of the same stream with the pre-marker lines removed; and if they
process with a fatal error, the whole parse fails. -/
theorem C10_premarker_frames_dropped (filename h : String) (pre rest : List String)
    (hpre : ∀ l ∈ pre, l ≠ partitionStartMarker) :
    (∀ st, pre.foldlM parseLineBody postHeaderState = some st →
      parseUbvInfo filename (h :: (pre ++ partitionStartMarker :: rest)) =
        parseUbvInfo filename (h :: partitionStartMarker :: rest)) ∧
    (pre.foldlM parseLineBody postHeaderState = none →
      parseUbvInfo filename (h :: (pre ++ partitionStartMarker :: rest)) = none) := by
  constructor
  · intro st hst
    rw [parseUbvInfo_cons, parseUbvInfo_cons]
    rw [foldlM_append_option parseLineBody pre (partitionStartMarker :: rest) postHeaderState]
    rw [hst]
    show (List.foldlM parseLineBody st (partitionStartMarker :: rest)).map _ = _
    rw [List.foldlM_cons, List.foldlM_cons]
    obtain ⟨h1, h2, h3⟩ := noMarker_fold_preserves pre postHeaderState st hpre hst
    have hmk : parseLineBody st partitionStartMarker =
        parseLineBody postHeaderState partitionStartMarker := by
      obtain ⟨f, ps, cur, cl⟩ := st
      have h1b : ps = [] := h1
      have h2b : cl = false := h2
      have h3b : f = false := h3
      subst h1b
      subst h2b
      subst h3b
      rfl
    rw [hmk]
  · intro hst
    rw [parseUbvInfo_cons]
    rw [foldlM_append_option parseLineBody pre (partitionStartMarker :: rest) postHeaderState]
    rw [hst]
    rfl

/-- Witness for `C10_premarker_frames_dropped`: a single valid video frame
line before the first marker parses but leaves no trace in the result. -/
theorem C10_premarker_frames_dropped_witness :
    parseUbvInfo "f" ["HDR", " V 7 1 0 100 x x 1000 1000", partitionStartMarker] =
      parseUbvInfo "f" ["HDR", partitionStartMarker] := by
  have h := (C10_premarker_frames_dropped "f" "HDR"
    [" V 7 1 0 100 x x 1000 1000"] [] (by decide)).1
    (([" V 7 1 0 100 x x 1000 1000"].foldlM parseLineBody postHeaderState).getD
      postHeaderState) (by rfl)
  exact h

/-! ## Track-rate invariant lemmas (for claim C3) -/

theorem trackRateInv_new (b : Bool) (tid : Int) : trackRateInv (newUbvTrack b tid) := by
  constructor
  · simp [newUbvTrack]
  · intro _
    refine ⟨le_refl 0, fun hgt => ?_⟩
    exact absurd hgt (by show ¬ (32 : Int) < 0; decide)

theorem lookupTrack_mem :
    ∀ (l : List (Int × UbvTrack)) (key : Int) (t : UbvTrack),
      lookupTrack l key = some t → (key, t) ∈ l := by
  intro l
  induction l with
  | nil => intro key t h; exact Option.noConfusion h
  | cons kv rest ih =>
    intro key t h
    rw [lookupTrack] at h
    split at h
    · injection h with h
      subst h
      rename_i heq
      subst heq
      exact List.mem_cons_self _ _
    · exact List.mem_cons_of_mem kv (ih key t h)

theorem mem_setTrack :
    ∀ (l : List (Int × UbvTrack)) (key : Int) (t : UbvTrack) (kv : Int × UbvTrack),
      kv ∈ setTrack l key t → kv = (key, t) ∨ kv ∈ l := by
  intro l
  induction l with
  | nil =>
    intro key t kv h
    rw [setTrack] at h
    rcases List.mem_singleton.mp h with rfl
    exact Or.inl rfl
  | cons kv0 rest ih =>
    intro key t kv h
    rw [setTrack] at h
    split at h
    · rcases List.mem_cons.mp h with rfl | hm
      · exact Or.inl rfl
      · exact Or.inr (List.mem_cons_of_mem kv0 hm)
    · rcases List.mem_cons.mp h with rfl | hm
      · exact Or.inr (List.mem_cons_self _ _)
      · rcases ih key t kv hm with h1 | h1
        · exact Or.inl h1
        · exact Or.inr (List.mem_cons_of_mem kv0 h1)

theorem extractCore_rateInv (wc tbc : Int) (t t2 : UbvTrack)
    (hinv : trackRateInv t) (h : extractTimecodeAndRateCore wc tbc t = some t2) :
    trackRateInv { t2 with frameCount := t2.frameCount + 1 } := by
  obtain ⟨hlen, hrate⟩ := hinv
  simp only [extractTimecodeAndRateCore] at h
  split at h
  · exact Option.noConfusion h
  · rw [Option.map_eq_some'] at h
    obtain ⟨t1, hup, rfl⟩ := h
    split at hup
    · -- first frame of the track
      rename_i hfc
      split at hup
      · -- audio track: rate := tbc, isVideo is false
        injection hup with hup
        subst hup
        rename_i hvid
        rw [Bool.not_eq_true'] at hvid
        refine ⟨hlen, fun hv => ?_⟩
        have hv2 : t.isVideo = true := hv
        rw [hvid] at hv2
        exact absurd hv2 (by decide)
      · -- video track: only the probe wall clock is recorded
        injection hup with hup
        subst hup
        refine ⟨hlen, fun hv => ?_⟩
        have hv2 : t.isVideo = true := hv
        refine ⟨(hrate hv2).1, fun hgt => ?_⟩
        exfalso
        have hgt2 : (32 : Int) < t.frameCount + 1 := hgt
        omega
    · split at hup
      · -- probe phase (rate = 0, video)
        rename_i hfc hcond
        split at hup
        · -- window not yet full
          rename_i hlt
          split at hup
          · exact Option.noConfusion hup
          · injection hup with hup
            subst hup
            refine ⟨?_, fun hv => ?_⟩
            · show (t.rateProbeWindow.set t.frameCount.toNat _).length = 32
              rw [List.length_set]
              exact hlen
            · refine ⟨?_, fun hgt => ?_⟩
              · show (0 : Int) ≤ t.rate
                rw [hcond.1]
              · exfalso
                rw [hlen] at hlt
                have hgt2 : (32 : Int) < t.frameCount + 1 := hgt
                omega
        · -- window full: the probe decides
          split at hup
          · -- mode in (0, 76): rate := mode
            rename_i hg
            injection hup with hup
            subst hup
            exact ⟨hlen, fun _ => ⟨le_of_lt hg.1, fun _ => hg.1⟩⟩
          · split at hup
            · -- mode 0: rate := 1
              injection hup with hup
              subst hup
              exact ⟨hlen, fun _ => ⟨(by decide : (0 : Int) ≤ 1), fun _ => (by decide : (0 : Int) < 1)⟩⟩
            · exact Option.noConfusion hup
      · -- rate already set (or not a video track): unchanged
        rename_i hfc hnot
        injection hup with hup
        subst hup
        refine ⟨hlen, fun hv => ?_⟩
        have hv2 : t.isVideo = true := hv
        have h1 := hrate hv2
        have hne : t.rate ≠ 0 := fun h0 => hnot ⟨h0, hv2⟩
        exact ⟨h1.1, fun _ => lt_of_le_of_ne h1.1 (Ne.symm hne)⟩

theorem bind_some_elim {α β : Type} (x : Option α) (f : α → Option β) (b : β)
    (h : (x >>= f) = some b) : ∃ a, x = some a ∧ f a = some b := by
  cases x with
  | none => exact Option.noConfusion h
  | some a => exact ⟨a, rfl, h⟩

theorem processFrameLine_tracksInv (line : String) (p p2 : UbvPartition)
    (hinv : partitionTracksInv p) (h : processFrameLine line p = some p2) :
    partitionTracksInv p2 := by
  unfold processFrameLine at h
  obtain ⟨tidS, h1, h⟩ := bind_some_elim _ _ _ h
  obtain ⟨tid, h2, h⟩ := bind_some_elim _ _ _ h
  obtain ⟨offS, h3, h⟩ := bind_some_elim _ _ _ h
  obtain ⟨off, h4, h⟩ := bind_some_elim _ _ _ h
  obtain ⟨sizeS, h5, h⟩ := bind_some_elim _ _ _ h
  obtain ⟨size, h6, h⟩ := bind_some_elim _ _ _ h
  dsimp only at h
  split at h
  · exact Option.noConfusion h
  · obtain ⟨track2, hex, h⟩ := bind_some_elim _ _ _ h
    injection h with h
    subst h
    intro kv hkv
    have hbase : trackRateInv ((lookupTrack p.tracks tid).getD
        (newUbvTrack (tid = TrackVideo || tid = TrackVideoHevcUnknown) tid)) := by
      cases hlk : lookupTrack p.tracks tid with
      | none => exact trackRateInv_new _ _
      | some tf => exact hinv (tid, tf) (lookupTrack_mem p.tracks tid tf hlk)
    have htrack3 : trackRateInv { track2 with frameCount := track2.frameCount + 1 } := by
      unfold extractTimecodeAndRate at hex
      obtain ⟨wcS, g1, hex⟩ := bind_some_elim _ _ _ hex
      obtain ⟨wc, g2, hex⟩ := bind_some_elim _ _ _ hex
      obtain ⟨tbcS, g3, hex⟩ := bind_some_elim _ _ _ hex
      obtain ⟨tbc, g4, hex⟩ := bind_some_elim _ _ _ hex
      exact extractCore_rateInv wc tbc _ track2 hbase hex
    rcases mem_setTrack _ tid _ kv hkv with rfl | hm
    · exact htrack3
    · split at hm
      · exact hinv kv hm
      · rcases List.mem_append.mp hm with h1m | h1m
        · exact hinv kv h1m
        · rcases List.mem_singleton.mp h1m with rfl
          exact trackRateInv_new _ _

theorem parseLine_tracksInv (st st2 : ParseState) (line : String)
    (hinv : stateTracksInv st) (h : parseLine st line = some st2) : stateTracksInv st2 := by
  rw [parseLine] at h
  split at h
  · injection h with h; subst h; exact hinv
  · rw [parseLineBody] at h
    split at h
    · injection h with h
      subst h
      constructor
      · intro kv hkv
        exact absurd hkv (List.not_mem_nil kv)
      · intro p hp
        have hp2 : p ∈ listedPartitions st := hp
        unfold listedPartitions at hp2
        rcases List.mem_append.mp hp2 with h1 | h1
        · exact hinv.2 p h1
        · split at h1
          · rcases List.mem_singleton.mp h1 with rfl
            exact hinv.1
          · exact absurd h1 (List.not_mem_nil p)
    · split at h
      · injection h with h; subst h; exact hinv
      · split at h
        · rw [Option.map_eq_some'] at h
          obtain ⟨pp, hpp, h⟩ := h
          subst h
          exact ⟨processFrameLine_tracksInv line st.current pp hinv.1 hpp, hinv.2⟩
        · injection h with h; subst h; exact hinv

theorem foldlM_parseLine_tracksInv :
    ∀ (lines : List String) (st st2 : ParseState), stateTracksInv st →
      lines.foldlM parseLine st = some st2 → stateTracksInv st2 := by
  intro lines
  induction lines with
  | nil =>
    intro st st2 hinv h
    injection h with h
    subst h
    exact hinv
  | cons l rest ih =>
    intro st st2 hinv h
    rw [List.foldlM_cons] at h
    obtain ⟨st1, h1, h2⟩ := bind_some_elim _ _ _ h
    exact ih st1 st2 (parseLine_tracksInv st st1 l hinv h1) h2

/-! ## Claim C3 (corrected) -/

set_option maxRecDepth 40000 in
/-- Claim C3 counterexample: a successfully parsed index (complete, no fatal
error) whose single partition holds a video track with one frame has
`rate = 0`, not `rate > 0`: the rate probe only fires once the track has
more frames than the 32-slot probe window, so short video tracks keep the
zero rate. -/
theorem C3_counterexample :
    (parseUbvInfo "f" demoLines1).isSome = true ∧
    demoParsed1.complete = true ∧
    demoPart1 ∈ demoParsed1.partitions ∧
    demoTrackKV1 ∈ demoPart1.tracks ∧
    demoTrackKV1.2.isVideo = true ∧
    ¬ 0 < demoTrackKV1.2.rate := by
  decide

/-- Claim C3 (amended): for every video track in every partition of an index
returned successfully by the parser, IF the track has more than 32 frames
(strictly more than the probe window holds, so the rate probe has fired),
THEN its rate is strictly positive. Tracks with at most 32 frames keep the
zero rate. -/
theorem C3_video_rate_after_probe (filename : String) (lines : List String)
    (u : UbvFile) (hu : parseUbvInfo filename lines = some u) :
    ∀ p ∈ u.partitions, ∀ kv ∈ p.tracks, kv.2.isVideo = true →
      32 < kv.2.frameCount → 0 < kv.2.rate := by
  unfold parseUbvInfo at hu
  rw [Option.map_eq_some'] at hu
  obtain ⟨st, hst, rfl⟩ := hu
  have hinv0 : stateTracksInv initParseState :=
    ⟨fun kv hkv => absurd hkv (List.not_mem_nil kv),
     fun p hp => absurd hp (List.not_mem_nil p)⟩
  have hinv := foldlM_parseLine_tracksInv lines initParseState st hinv0 hst
  intro p hp kv hkv hvid hfc
  have hp2 : p ∈ listedPartitions st := hp
  have hpinv : partitionTracksInv p := by
    unfold listedPartitions at hp2
    rcases List.mem_append.mp hp2 with h1 | h1
    · exact hinv.2 p h1
    · split at h1
      · rcases List.mem_singleton.mp h1 with rfl
        exact hinv.1
      · exact absurd h1 (List.not_mem_nil p)
  exact ((hpinv kv hkv).2 hvid).2 hfc

set_option maxRecDepth 100000 in
/-- Witness for `C3_video_rate_after_probe`: a parsed sidecar with 33 video
frame lines yields a video track with 33 frames and a positive rate. -/
theorem C3_video_rate_after_probe_witness : 0 < demoTrackKV33.2.rate := by
  exact C3_video_rate_after_probe "f" demoLines33 demoParsed33 (by rfl)
    demoPart33 (by decide) demoTrackKV33 (by decide) (by decide) (by decide)

/-! ## Rate-probe lemmas (for claim C9) -/

theorem guessStep_self (k : Int) (hk : 0 < k) (st : GuessState)
    (h : st.counts k = st.frequency) :
    (guessStep st k).mostFrequent = k ∧
      (guessStep st k).counts k = (guessStep st k).frequency := by
  simp only [guessStep]
  rw [if_pos hk, h]
  rw [if_pos (Nat.lt_succ_self _)]
  exact ⟨rfl, by simp⟩

theorem guess_fold_replicate (k : Int) (hk : 0 < k) :
    ∀ (n : Nat) (st : GuessState), st.counts k = st.frequency → st.mostFrequent = k →
      ((List.replicate n k).foldl guessStep st).mostFrequent = k := by
  intro n
  induction n with
  | zero => intro st _ hm; simpa using hm
  | succ n ih =>
    intro st h hm
    rw [List.replicate_succ, List.foldl_cons]
    obtain ⟨h1, h2⟩ := guessStep_self k hk st h
    exact ih (guessStep st k) h2 h1

/-- The mode of a window holding one zero slot and 31 copies of `k > 0`
is `k`. -/
theorem guessVideoRate_const (k : Int) (hk : 0 < k) :
    guessVideoRate (0 :: List.replicate 31 k) = k := by
  unfold guessVideoRate
  rw [List.foldl_cons]
  have h0 : guessStep ⟨fun _ => 0, 0, 0⟩ (0 : Int) = ⟨fun _ => 0, 0, 0⟩ := by
    simp only [guessStep]
    rw [if_neg (by decide)]
  rw [h0]
  rw [show (31 : Nat) = 30 + 1 from rfl, List.replicate_succ, List.foldl_cons]
  obtain ⟨h1, h2⟩ := guessStep_self k hk ⟨fun _ => 0, 0, 0⟩ rfl
  exact guess_fold_replicate k hk 30 _ h2 h1

theorem set_after_replicate :
    ∀ (j : Nat) (k : Int) (tl : List Int),
      (List.replicate j k ++ tl).set j k = List.replicate j k ++ tl.set 0 k := by
  intro j
  induction j with
  | zero => intro k tl; simp
  | succ j ih =>
    intro k tl
    rw [List.replicate_succ, List.cons_append, List.set_cons_succ, ih]
    rfl

/-- Setting slot `j + 1` of the partially filled window to `k` extends the
filled prefix by one. -/
theorem probe_window_set (j : Nat) (k : Int) (hj : j < 31) :
    (0 :: (List.replicate j k ++ List.replicate (31 - j) 0)).set (j + 1) k =
      0 :: (List.replicate (j + 1) k ++ List.replicate (31 - (j + 1)) 0) := by
  rw [List.set_cons_succ, set_after_replicate]
  rw [show 31 - j = (30 - j) + 1 from by omega, List.replicate_succ, List.set_cons_zero]
  rw [show 31 - (j + 1) = 30 - j from by omega]
  rw [List.replicate_succ']
  rw [List.append_assoc]
  rfl

theorem probe_window_length (j : Nat) (k : Int) (hj : j ≤ 31) :
    (0 :: (List.replicate j k ++ List.replicate (31 - j) 0)).length = 32 := by
  simp only [List.length_cons, List.length_append, List.length_replicate]
  omega

/-- One probe-phase frame (frames 2..32 of a video track): the observed
quotient `tbc tdiv d = k` lands in the next window slot. -/
theorem probe_fill_step (tid w0 d tbc k : Int) (j : Nat) (hj : j < 31)
    (htbc : tbc ≠ 0) (hd : d ≠ 0) (hk : Int.tdiv tbc d = k) :
    processTrackFrame (w0 + ((j : Int) + 1) * d) tbc (probeTrackState tid w0 d tbc k j) =
      some (probeTrackState tid w0 d tbc k (j + 1)) := by
  have hwin : (probeTrackState tid w0 d tbc k j).rateProbeWindow =
      0 :: (List.replicate j k ++ List.replicate (31 - j) 0) := rfl
  unfold processTrackFrame extractTimecodeAndRateCore
  rw [if_neg htbc]
  dsimp only
  rw [if_neg (show ¬ (probeTrackState tid w0 d tbc k j).frameCount = 0 from by
    show ¬ (j : Int) + 1 = 0
    omega)]
  rw [if_pos (show (probeTrackState tid w0 d tbc k j).rate = 0 ∧
      (probeTrackState tid w0 d tbc k j).isVideo = true from ⟨rfl, rfl⟩)]
  rw [if_pos (show (probeTrackState tid w0 d tbc k j).frameCount <
      ((probeTrackState tid w0 d tbc k j).rateProbeWindow.length : Int) from by
    rw [hwin, probe_window_length j k (le_of_lt hj)]
    show (j : Int) + 1 < (32 : Nat)
    push_cast
    omega)]
  rw [if_neg (show ¬ (w0 + ((j : Int) + 1) * d) -
      (probeTrackState tid w0 d tbc k j).rateProbeLastFrameWC = 0 from by
    show ¬ (w0 + ((j : Int) + 1) * d) - (w0 + (j : Int) * d) = 0
    intro hzero
    exact hd (by linarith))]
  simp only [Option.map_some']
  apply congrArg some
  have harg : (w0 + ((j : Int) + 1) * d) - (w0 + (j : Int) * d) = d := by ring
  show ({ probeTrackState tid w0 d tbc k j with
      rateProbeWindow := (probeTrackState tid w0 d tbc k j).rateProbeWindow.set
        ((probeTrackState tid w0 d tbc k j).frameCount).toNat
        (Int.tdiv tbc ((w0 + ((j : Int) + 1) * d) -
          (probeTrackState tid w0 d tbc k j).rateProbeLastFrameWC)),
      rateProbeLastFrameWC := w0 + ((j : Int) + 1) * d,
      lastTimecode := frameTimecodeNanos (w0 + ((j : Int) + 1) * d) tbc,
      frameCount := (j : Int) + 1 + 1 } : UbvTrack) = probeTrackState tid w0 d tbc k (j + 1)
  have hset : (probeTrackState tid w0 d tbc k j).rateProbeWindow.set
      ((probeTrackState tid w0 d tbc k j).frameCount).toNat
      (Int.tdiv tbc ((w0 + ((j : Int) + 1) * d) -
        (probeTrackState tid w0 d tbc k j).rateProbeLastFrameWC)) =
      0 :: (List.replicate (j + 1) k ++ List.replicate (31 - (j + 1)) 0) := by
    rw [hwin]
    rw [show (w0 + ((j : Int) + 1) * d) -
      (probeTrackState tid w0 d tbc k j).rateProbeLastFrameWC = d from by
        show (w0 + ((j : Int) + 1) * d) - (w0 + (j : Int) * d) = d
        ring]
    rw [hk]
    rw [show ((probeTrackState tid w0 d tbc k j).frameCount).toNat = j + 1 from by
      show ((j : Int) + 1).toNat = j + 1
      omega]
    exact probe_window_set j k hj
  rw [hset]
  unfold probeTrackState
  simp only [UbvTrack.mk.injEq]
  and_intros <;> first
    | rfl
    | (push_cast; ring)
    | (congr 1 <;> push_cast <;> ring)

/-- Frames 1..(j+1) of a constant-quotient run drive a fresh video track to
`probeTrackState … j`. -/
theorem probe_fill_run (tid w0 d tbc k : Int) (htbc : tbc ≠ 0) (hd : d ≠ 0)
    (hk : Int.tdiv tbc d = k) :
    ∀ j : Nat, j ≤ 31 →
      probeRun tbc ((List.range (j + 1)).map fun i : Nat => w0 + (i : Int) * d)
        (newUbvTrack true tid) = some (probeTrackState tid w0 d tbc k j) := by
  intro j
  induction j with
  | zero =>
    intro _
    show processTrackFrame (w0 + ((0 : Nat) : Int) * d) tbc (newUbvTrack true tid) >>=
      (fun t => some t) = some (probeTrackState tid w0 d tbc k 0)
    rw [show w0 + ((0 : Nat) : Int) * d = w0 from by push_cast; ring]
    unfold processTrackFrame extractTimecodeAndRateCore
    rw [if_neg htbc]
    dsimp only
    rw [if_pos (show (newUbvTrack true tid).frameCount = 0 from rfl)]
    rw [if_neg (show ¬ (!(newUbvTrack true tid).isVideo) = true from by simp [newUbvTrack])]
    show some _ = some _
    apply congrArg some
    unfold newUbvTrack probeTrackState
    simp only [UbvTrack.mk.injEq]
    and_intros <;> first
      | rfl
      | (push_cast; ring)
      | (congr 1 <;> push_cast <;> ring)
  | succ j ih =>
    intro hj
    rw [List.range_succ, List.map_append]
    unfold probeRun
    rw [foldlM_append_option]
    show (probeRun tbc ((List.range (j + 1)).map fun i : Nat => w0 + (i : Int) * d)
      (newUbvTrack true tid)) >>= _ = _
    rw [ih (by omega)]
    show List.foldlM _ (probeTrackState tid w0 d tbc k j) _ = _
    show processTrackFrame (w0 + ((j + 1 : Nat) : Int) * d) tbc
      (probeTrackState tid w0 d tbc k j) >>= (fun t => some t) = _
    rw [show w0 + ((j + 1 : Nat) : Int) * d = w0 + ((j : Int) + 1) * d from by push_cast; ring]
    rw [probe_fill_step tid w0 d tbc k j (by omega) htbc hd hk]
    rfl

theorem probeRun_snoc (tbc : Int) (wcs : List Int) (wc : Int) (t t1 : UbvTrack)
    (h : probeRun tbc wcs t = some t1) :
    probeRun tbc (wcs ++ [wc]) t = processTrackFrame wc tbc t1 := by
  unfold probeRun at h ⊢
  rw [foldlM_append_option, h]
  show processTrackFrame wc tbc t1 >>= (fun t2 => some t2) = _
  cases processTrackFrame wc tbc t1 with
  | none => rfl
  | some x => rfl

/-! ## Claim C9 (confirmed) -/

/-- Claim C9: for a video track with enough frames to fill the probe window,
with `m` the mode computed by `guessVideoRate`:
(1) if `0 < m < 76` the 33rd frame sets `rate := m`;
(2) in particular, a 33-frame run whose inter-frame quotients
    `WC_TBC tdiv ΔWC` all equal a constant `k ∈ (0, 76)` ends with
    `rate = k`;
(3) if `m = 0` the rate is set to 1 (timelapse warning);
(4) if `m ≥ 76` the probe fails fatally. -/
theorem C9_rate_probe (k d w0 tbc wcA tbcA wcB tbcB wcC tbcC : Int)
    (tA tB tC : UbvTrack) :
    ((tA.isVideo = true → tA.rate = 0 → tA.frameCount = 32 →
      tA.rateProbeWindow.length = 32 → tbcA ≠ 0 →
      0 < guessVideoRate tA.rateProbeWindow → guessVideoRate tA.rateProbeWindow < 76 →
      (processTrackFrame wcA tbcA tA).map (fun t => t.rate) =
        some (guessVideoRate tA.rateProbeWindow)) ∧
    (0 < k → k < 76 → d ≠ 0 → tbc ≠ 0 → Int.tdiv tbc d = k →
      (probeRun tbc ((List.range 33).map fun i : Nat => w0 + (i : Int) * d)
        (newUbvTrack true TrackVideo)).map (fun t => t.rate) = some k) ∧
    (tB.isVideo = true → tB.rate = 0 → tB.frameCount = 32 →
      tB.rateProbeWindow.length = 32 → tbcB ≠ 0 →
      guessVideoRate tB.rateProbeWindow = 0 →
      (processTrackFrame wcB tbcB tB).map (fun t => t.rate) = some 1) ∧
    (tC.isVideo = true → tC.rate = 0 → tC.frameCount = 32 →
      tC.rateProbeWindow.length = 32 → tbcC ≠ 0 →
      76 ≤ guessVideoRate tC.rateProbeWindow →
      processTrackFrame wcC tbcC tC = none)) := by
  have hstep : ∀ (wc tbcX : Int) (t : UbvTrack), t.isVideo = true → t.rate = 0 →
      t.frameCount = 32 → t.rateProbeWindow.length = 32 → tbcX ≠ 0 →
      processTrackFrame wc tbcX t =
        (if 0 < guessVideoRate t.rateProbeWindow ∧ guessVideoRate t.rateProbeWindow < 76 then
          some { t with
                  rate := guessVideoRate t.rateProbeWindow,
                  lastTimecode := frameTimecodeNanos wc tbcX,
                  frameCount := t.frameCount + 1 }
        else if guessVideoRate t.rateProbeWindow = 0 then
          some { t with
                  rate := 1,
                  lastTimecode := frameTimecodeNanos wc tbcX,
                  frameCount := t.frameCount + 1 }
        else none) := by
    intro wc tbcX t hv hr hfc hlen htbcX
    unfold processTrackFrame extractTimecodeAndRateCore
    rw [if_neg htbcX]
    dsimp only
    rw [if_neg (show ¬ t.frameCount = 0 from by rw [hfc]; decide)]
    rw [if_pos (show t.rate = 0 ∧ t.isVideo = true from ⟨hr, hv⟩)]
    rw [if_neg (show ¬ t.frameCount < (t.rateProbeWindow.length : Int) from by
      rw [hfc, hlen]; decide)]
    split
    · rfl
    · split
      · rfl
      · rfl
  refine ⟨?_, ?_, ?_, ?_⟩
  · intro hv hr hfc hlen htbcX hg0 hg76
    rw [hstep wcA tbcA tA hv hr hfc hlen htbcX]
    rw [if_pos ⟨hg0, hg76⟩]
    rfl
  · intro hk0 hk76 hd htbcX hk
    have hrun : probeRun tbc ((List.range 32).map fun i : Nat => w0 + (i : Int) * d)
        (newUbvTrack true TrackVideo) =
        some (probeTrackState TrackVideo w0 d tbc k 31) := by
      rw [show (32 : Nat) = 31 + 1 from by norm_num]
      exact probe_fill_run TrackVideo w0 d tbc k htbcX hd hk 31 (le_refl 31)
    rw [show (33 : Nat) = 32 + 1 from by norm_num, List.range_succ, List.map_append]
    simp only [List.map_cons, List.map_nil]
    rw [probeRun_snoc tbc _ _ _ _ hrun]
    rw [hstep (w0 + ((32 : Nat) : Int) * d) tbc (probeTrackState TrackVideo w0 d tbc k 31)
      rfl rfl (by norm_num [probeTrackState]) (probe_window_length 31 k (le_refl 31)) htbcX]
    rw [show (probeTrackState TrackVideo w0 d tbc k 31).rateProbeWindow =
      0 :: List.replicate 31 k from by
        show 0 :: (List.replicate 31 k ++ List.replicate (31 - 31) 0) = _
        simp]
    rw [guessVideoRate_const k hk0]
    rw [if_pos ⟨hk0, hk76⟩]
    rfl
  · intro hv hr hfc hlen htbcX hg0
    rw [hstep wcB tbcB tB hv hr hfc hlen htbcX]
    rw [if_neg (show ¬ (0 < guessVideoRate tB.rateProbeWindow ∧
      guessVideoRate tB.rateProbeWindow < 76) from by rw [hg0]; simp)]
    rw [if_pos hg0]
    rfl
  · intro hv hr hfc hlen htbcX hg76
    rw [hstep wcC tbcC tC hv hr hfc hlen htbcX]
    rw [if_neg (show ¬ (0 < guessVideoRate tC.rateProbeWindow ∧
      guessVideoRate tC.rateProbeWindow < 76) from by omega)]
    rw [if_neg (show ¬ guessVideoRate tC.rateProbeWindow = 0 from by omega)]

set_option maxRecDepth 100000 in
/-- Witness for `C9_rate_probe`: all four conjuncts at concrete inputs: a
33-frame run with constant quotient 30 ends with rate 30; a window of mode
30 sets rate 30; a window of mode 0 sets rate 1; a window of mode 100
aborts. -/
theorem C9_rate_probe_witness :
    (processTrackFrame 5 48000 demoTrackMode30).map (fun t => t.rate) = some 30 ∧
    (probeRun 30000 ((List.range 33).map fun i : Nat => 0 + (i : Int) * 1000)
      (newUbvTrack true TrackVideo)).map (fun t => t.rate) = some 30 ∧
    (processTrackFrame 5 48000 demoTrackMode0).map (fun t => t.rate) = some 1 ∧
    processTrackFrame 5 48000 demoTrackMode100 = none := by
  obtain ⟨h1, h2, h3, h4⟩ := C9_rate_probe 30 1000 0 30000 5 48000 5 48000 5 48000
    demoTrackMode30 demoTrackMode0 demoTrackMode100
  refine ⟨?_, ?_, ?_, ?_⟩
  · have := h1 (by decide) (by decide) (by decide) (by decide) (by decide)
      (by decide) (by decide)
    rw [this]
    decide
  · exact h2 (by decide) (by decide) (by decide) (by decide) (by decide)
  · exact h3 (by decide) (by decide) (by decide) (by decide) (by decide) (by decide)
  · exact h4 (by decide) (by decide) (by decide) (by decide) (by decide) (by decide)

/-! ## Round-trip lemmas (for claim C1) -/

theorem readBytes_eq (file : List Nat) (pos : Int) (n : Nat) (l : List Nat)
    (h : readBytes file pos n = some l) :
    l = (file.drop pos.toNat).take n ∧ ∀ b ∈ l, b ∈ file := by
  unfold readBytes at h
  split at h
  · injection h with h
    subst h
    exact ⟨rfl, fun b hb =>
      List.drop_subset _ file (List.take_subset _ _ hb)⟩
  · exact Option.noConfusion h

theorem readBE32_lt (file : List Nat) (hfile : ∀ b ∈ file, b < 256) (pos : Int)
    (n : Nat) (h : readBE32 file pos = some n) : n < 2 ^ 32 := by
  unfold readBE32 at h
  cases hrb : readBytes file pos 4 with
  | none => rw [hrb] at h; exact Option.noConfusion h
  | some l =>
    rw [hrb] at h
    obtain ⟨-, hmem⟩ := readBytes_eq file pos 4 l hrb
    match l, h with
    | [b0, b1, b2, b3], h =>
      injection h with h
      subst h
      have h0 := hfile b0 (hmem b0 (by simp))
      have h1 := hfile b1 (hmem b1 (by simp))
      have h2 := hfile b2 (hmem b2 (by simp))
      have h3 := hfile b3 (hmem b3 (by simp))
      omega

theorem nalLoop_eq_of_read (file : List Nat) (offset size bufSize c : Int) (n : Nat)
    (hc : c < size) (hre : readBE32 file (offset + c) = some n) :
    nalLoop file offset size bufSize c =
      (if size < c + toInt32 n then none
       else if toInt32 n < 0 then none
       else if bufSize < toInt32 n then none
       else
         match readBytes file (offset + c + 4) (toInt32 n).toNat with
         | none => none
         | some payload =>
           match nalLoop file offset size bufSize (c + 4 + toInt32 n) with
           | none => none
           | some rest => some (payload ++ ([0, 0, 0, 1] ++ rest))) := by
  rw [nalLoop_unfold, if_pos hc, hre]

theorem decodeNalPayloads_eq_of_read (file : List Nat) (offset size c : Int) (n : Nat)
    (hc : c < size) (hre : readBE32 file (offset + c) = some n) :
    decodeNalPayloads file offset size c =
      (if size < c + 4 + (n : Int) then none
       else
         match readBytes file (offset + c + 4) n with
         | none => none
         | some payload =>
           (decodeNalPayloads file offset size (c + 4 + (n : Int))).map fun rest =>
             payload :: rest) := by
  rw [decodeNalPayloads_unfold, if_pos hc, hre]

/-- When both the extractor loop and the spec-side decoder succeed on a
frame, the bytes the extractor wrote are exactly the decoded NAL payloads
each followed by a start code. -/
theorem nalLoop_decode_agree (file : List Nat) (hfile : ∀ b ∈ file, b < 256)
    (offset size bufSize : Int) :
    ∀ (m : Nat) (c : Int), (size - c).toNat = m →
      ∀ (bs : List Nat) (nals : List (List Nat)),
        nalLoop file offset size bufSize c = some bs →
        decodeNalPayloads file offset size c = some nals →
        bs = (nals.map (· ++ [0, 0, 0, 1])).flatten := by
  intro m
  induction m using Nat.strong_induction_on with
  | _ m ih =>
    intro c hm bs nals hn hd
    by_cases hc : c < size
    · cases hre : readBE32 file (offset + c) with
      | none =>
        rw [nalLoop_unfold, if_pos hc, hre] at hn
        exact Option.noConfusion hn
      | some n =>
        have hn32 : n < 2 ^ 32 := readBE32_lt file hfile (offset + c) n hre
        rw [nalLoop_eq_of_read file offset size bufSize c n hc hre] at hn
        rw [decodeNalPayloads_eq_of_read file offset size c n hc hre] at hd
        split at hn
        · exact Option.noConfusion hn
        split at hn
        · exact Option.noConfusion hn
        rename_i hov hneg
        have h32 : toInt32 n = (n : Int) := by
          by_cases hlt : n < 2 ^ 31
          · rw [toInt32, if_pos hlt]
          · exfalso
            apply hneg
            rw [toInt32, if_neg hlt]
            omega
        rw [h32] at hn
        rw [Int.toNat_natCast] at hn
        split at hn
        · exact Option.noConfusion hn
        split at hd
        · exact Option.noConfusion hd
        cases hrb : readBytes file (offset + c + 4) n with
        | none => rw [hrb] at hn; exact Option.noConfusion hn
        | some payload =>
          rw [hrb] at hn hd
          cases hrec : nalLoop file offset size bufSize (c + 4 + (n : Int)) with
          | none => rw [hrec] at hn; exact Option.noConfusion hn
          | some rest1 =>
            rw [hrec] at hn
            injection hn with hn
            rw [Option.map_eq_some'] at hd
            obtain ⟨rest2, hd2, rfl⟩ := hd
            have hrecm := ih ((size - (c + 4 + (n : Int))).toNat) (by omega)
              (c + 4 + (n : Int)) rfl rest1 rest2 hrec hd2
            rw [← hn, hrecm]
            simp
    · rw [nalLoop_unfold, if_neg hc] at hn
      rw [decodeNalPayloads_unfold, if_neg hc] at hd
      injection hn with hn
      injection hd with hd
      subst hn
      subst hd
      rfl

theorem specAudioBytes_cons (file : List Nat) (f : UbvFrame) (fs : List UbvFrame) :
    specAudioBytes file (f :: fs) =
      (if f.trackNumber = TrackAudio then (file.drop f.offset.toNat).take f.size.toNat
       else []) ++ specAudioBytes file fs := by
  unfold specAudioBytes
  rw [List.filter_cons]
  by_cases h : f.trackNumber = TrackAudio
  · rw [if_pos (by simpa using h), if_pos h]
    simp
  · rw [if_neg (by simpa using h), if_neg h]
    simp

/-- Accumulator-generalised round trip of the frame loop: with both sinks
attached, a successful run appends to the video sink exactly the decoded
NAL payloads (each with a start code) of the selected video track's frames,
and to the audio sink exactly the raw audio-frame slices. -/
theorem demux_fold_spec (file : List Nat) (hfile : ∀ b ∈ file, b < 256)
    (videoTrackNum : Int) (hvt : videoTrackNum ≠ TrackAudio) (bufSize : Int) :
    ∀ (frames : List UbvFrame) (acc : List Nat × List Nat) (v a : List Nat),
      frames.foldlM (demuxStep file videoTrackNum true true bufSize) acc = some (v, a) →
      ∀ dec : List (List (List Nat)),
        (frames.filter fun f => f.trackNumber = videoTrackNum).mapM
            (fun f => decodeNalPayloads file f.offset f.size 0) = some dec →
        v = acc.1 ++ (dec.map fun nals => (nals.map (· ++ [0, 0, 0, 1])).flatten).flatten ∧
        a = acc.2 ++ specAudioBytes file frames := by
  intro frames
  induction frames with
  | nil =>
    intro acc v a hn dec hd
    have hn2 : some acc = some (v, a) := hn
    injection hn2 with hn2
    have hd2 : some ([] : List (List (List Nat))) = some dec := hd
    injection hd2 with hd2
    subst hd2
    subst hn2
    simp [specAudioBytes]
  | cons f fs ih =>
    intro acc v a hn dec hd
    rw [List.foldlM_cons] at hn
    obtain ⟨acc1, hstep, hrest⟩ := bind_some_elim _ _ _ hn
    unfold demuxStep at hstep
    cases hroute : routeFrame f true videoTrackNum true with
    | video =>
      rw [hroute] at hstep
      obtain ⟨htrk, -⟩ := (routeFrame_video_iff f true videoTrackNum true).mp hroute
      rw [Option.map_eq_some'] at hstep
      obtain ⟨bs, hnal, hacc1⟩ := hstep
      subst hacc1
      rw [List.filter_cons, if_pos (by simpa using htrk), List.mapM_cons] at hd
      obtain ⟨nf, hdecf, hd⟩ := bind_some_elim _ _ _ hd
      obtain ⟨dec2, hd2, hpure⟩ := bind_some_elim _ _ _ hd
      have hpure2 : some (nf :: dec2) = some dec := hpure
      injection hpure2 with hpure2
      subst hpure2
      have hbs := nalLoop_decode_agree file hfile f.offset f.size bufSize
        ((f.size - 0).toNat) 0 rfl bs nf hnal hdecf
      obtain ⟨ihv, iha⟩ := ih _ v a hrest dec2 hd2
      constructor
      · rw [ihv, hbs]
        simp [List.append_assoc]
      · rw [iha, specAudioBytes_cons, if_neg (by rw [htrk]; exact hvt)]
        simp
    | audio =>
      rw [hroute] at hstep
      obtain ⟨haud, -, hnotv⟩ := (routeFrame_audio_iff f true videoTrackNum true).mp hroute
      have htrkne : ¬ f.trackNumber = videoTrackNum := fun hh => hnotv ⟨hh, rfl⟩
      rw [Option.map_eq_some'] at hstep
      obtain ⟨bs, haf, hacc1⟩ := hstep
      subst hacc1
      unfold audioFrameRead at haf
      split at haf
      · exact Option.noConfusion haf
      split at haf
      · exact Option.noConfusion haf
      split at haf
      · exact Option.noConfusion haf
      obtain ⟨hbs, -⟩ := readBytes_eq file f.offset f.size.toNat bs haf
      rw [List.filter_cons, if_neg (by simpa using htrkne)] at hd
      obtain ⟨ihv, iha⟩ := ih _ v a hrest dec hd
      constructor
      · rw [ihv]
      · rw [iha, specAudioBytes_cons, if_pos haud, hbs]
        simp [List.append_assoc]
    | skip =>
      rw [hroute] at hstep
      obtain ⟨hnv, hna⟩ := (routeFrame_skip_iff f true videoTrackNum true).mp hroute
      have htrkne : ¬ f.trackNumber = videoTrackNum := fun hh => hnv ⟨hh, rfl⟩
      have haudne : ¬ f.trackNumber = TrackAudio := fun hh => hna ⟨hh, rfl⟩
      have hstep2 : some acc = some acc1 := hstep
      injection hstep2 with hstep2
      subst hstep2
      rw [List.filter_cons, if_neg (by simpa using htrkne)] at hd
      obtain ⟨ihv, iha⟩ := ih _ v a hrest dec hd
      exact ⟨ihv, by rw [iha, specAudioBytes_cons, if_neg haudne]; simp⟩

/-! ## Claim C1 (confirmed) -/

/-- Claim C1: for every partition extracted with both a video and an audio
sink (selected video track distinct from the audio track, UBV input a byte
stream), if extraction succeeds and the spec-side decoding of the video
frames is defined, then (a) the video sink holds the opening start code
followed by, in file order, the length-prefix-decoded NAL payloads of every
frame of the selected video track, each followed by a start code — so the
payload concatenations agree after removing start codes — and (b) the audio
sink holds the concatenation, in file order, of the byte slices
`[offset, offset+size)` of the UBV file of every audio frame. -/
theorem C1_framing_roundtrip (file : List Nat) (hfile : ∀ b ∈ file, b < 256)
    (partition : UbvPartition) (videoTrackNum : Int) (hvt : videoTrackNum ≠ TrackAudio)
    (v a : List Nat)
    (hrun : DemuxSinglePartition file partition true videoTrackNum true = some (v, a))
    (sv : List Nat)
    (hspec : specVideoBytes file partition.frames videoTrackNum = some sv) :
    v = sv ∧ a = specAudioBytes file partition.frames := by
  unfold DemuxSinglePartition at hrun
  dsimp only at hrun
  unfold specVideoBytes at hspec
  obtain ⟨dec, hdec, hsv⟩ := bind_some_elim _ _ _ hspec
  have hsv2 : some ([0, 0, 0, 1] ++
      (dec.map fun nals => (nals.map (· ++ [0, 0, 0, 1])).flatten).flatten) = some sv := hsv
  injection hsv2 with hsv2
  obtain ⟨h1, h2⟩ := demux_fold_spec file hfile videoTrackNum hvt
    (bufferSize partition.frames) partition.frames ([0, 0, 0, 1], []) v a hrun dec hdec
  exact ⟨by rw [h1, hsv2], by rw [h2]; simp⟩

/-- Witness for `C1_framing_roundtrip` on `demoFile` / `demoPartition` (one
video frame holding one NAL, one audio frame). -/
theorem C1_framing_roundtrip_witness :
    ([0, 0, 0, 1, 9, 8, 0, 0, 0, 1] : List Nat) = [0, 0, 0, 1, 9, 8, 0, 0, 0, 1] ∧
    ([5, 6, 7] : List Nat) = specAudioBytes demoFile demoPartition.frames := by
  exact C1_framing_roundtrip demoFile (by decide) demoPartition 7 (by decide)
    [0, 0, 0, 1, 9, 8, 0, 0, 0, 1] [5, 6, 7] (by decide)
    [0, 0, 0, 1, 9, 8, 0, 0, 0, 1] (by decide)

end UbvRemux
